import Mathlib

/-!
# MIT-Solve-Evaluator: verification of the orchestration core

Shallow embedding of the repository's core components and proofs about them:

* the in-memory record store (`MemStorage` in `server/storage.ts`),
* the sliding-window rate limiter (`RateLimiter` in `server/routes.ts`),
* the evaluate route handler (`POST /api/evaluate/:id` in `server/routes.ts`),
* the Gemini response extraction and structure check (`server/gemini.ts`),
* the zod response schema (`shared/schema.ts`),
* the CSV ingestion passes (`loadSolutionsFromCSV` in `server/index.ts`
  and the upload route in `server/routes.ts`),
* the client batch orchestrator (`evaluateAll` in
  `client/src/components/BatchEvaluation.tsx`).

JavaScript `Map` objects are embedded as insertion-ordered association
lists; `Date.now()` timestamps are integers (milliseconds); `Math.random()`
draws are passed in as explicit rational-valued streams with their `[0,1)`
bound taken as a hypothesis where needed.
-/

namespace MitSolve

/-! ## Insertion-ordered association lists (the embedding of JS `Map`) -/

/-- Embeds `Map.set`: replace the binding in place when the key is present,
otherwise append (JS maps preserve insertion order). -/
def mapSet {α β : Type} [DecidableEq α] : List (α × β) → α → β → List (α × β)
  | [], k, v => [(k, v)]
  | (k', v') :: rest, k, v =>
    if k' = k then (k, v) :: rest else (k', v') :: mapSet rest k v

/-- Embeds `Map.values()` in insertion order. -/
def mapValues {α β : Type} (m : List (α × β)) : List β := m.map Prod.snd

/-- Embeds `Map.get`: the value bound to `k`, if any. -/
def mapFind {α β : Type} [DecidableEq α] (m : List (α × β)) (k : α) : Option β :=
  (m.find? (fun kv => kv.1 = k)).map Prod.snd

/-- Embeds `Map.has(k)`. -/
def mapHasKey {α β : Type} [DecidableEq α] (m : List (α × β)) (k : α) : Bool :=
  (mapFind m k).isSome

/-! ## JSON values

The embedding of the JavaScript values produced by `JSON.parse`.  JSON
numbers are restricted to integers; no theorem below exercises a
non-integer numeric literal. -/

inductive JsonVal : Type where
  | null
  | bool (b : Bool)
  | num (n : Int)
  | str (s : String)
  | arr (items : List JsonVal)
  | obj (fields : List (String × JsonVal))
deriving Repr

/-- Property access `j[k]` on a parsed JSON value: `undefined` (modelled as
`none`) on non-objects and absent keys; for duplicate keys `JSON.parse`
keeps the last occurrence. -/
def jsGetProp (j : JsonVal) (k : String) : Option JsonVal :=
  match j with
  | .obj fields => (fields.reverse.find? (fun kv => kv.1 = k)).map Prod.snd
  | _ => none

/-- JavaScript truthiness of a parsed JSON value. -/
def jsTruthy : JsonVal → Bool
  | .null => false
  | .bool b => b
  | .num n => n != 0
  | .str s => s != ""
  | .arr _ => true
  | .obj _ => true

/-- Truthiness of a possibly-`undefined` property. -/
def jsTruthyOpt : Option JsonVal → Bool
  | none => false
  | some j => jsTruthy j

/-! ## The rate limiter (`RateLimiter` in `server/routes.ts`)

The limiter state is its `requestTimestamps` array.  `maxRequests = 5` and
`timeWindow = 60 * 1000` for the process-wide `evaluationRateLimiter`. -/

/-- The purge step at the top of `isRateLimited`: keep timestamps with
`now - timestamp < timeWindow`. -/
def purgeExpired (timeWindow now : Int) (ts : List Int) : List Int :=
  ts.filter (fun t => now - t < timeWindow)

/-- Embeds `RateLimiter.isRateLimited()`: purge, then either report the limit hit
(without recording) or record `now` and allow.  Returns the flag together
with the updated `requestTimestamps`. -/
def isRateLimited (maxReq : Nat) (timeWindow now : Int) (ts : List Int) :
    Bool × List Int :=
  let purged := purgeExpired timeWindow now ts
  if maxReq ≤ purged.length then (true, purged)
  else (false, purged ++ [now])

/-- Embeds `RateLimiter.getTimeToWait()`. -/
def getTimeToWait (timeWindow now : Int) (ts : List Int) : Int :=
  match ts with
  | [] => 0
  | oldest :: _ => max 0 (timeWindow - (now - oldest))

/-! ## The record store (`MemStorage` in `server/storage.ts`) -/

structure User : Type where
  id : Nat
  username : String
  password : String
deriving Repr, DecidableEq

structure InsertUser : Type where
  username : String
  password : String
deriving Repr, DecidableEq

/-- A stored `Solution` row: `none` embeds SQL/JS `null` for the optional
descriptive fields. -/
structure Solution : Type where
  id : Nat
  solutionId : String
  challengeName : Option String
  summary : Option String
  headquarters : Option String
  organizationType : Option String
  problemStatement : Option String
  solutionDescription : Option String
  targetBeneficiaries : Option String
  technologiesUsed : Option String
  websiteLinks : Option String
  operatingCountries : Option String
  teamSize : Option String
  duration : Option String
  diversityApproaches : Option String
  businessModel : Option String
  serviceDeliveryModel : Option String
  financialSustainability : Option String
deriving Repr, DecidableEq

/-- An `InsertSolution`: the optional fields may be absent (`none` embeds
JS `undefined`/`null`; `x ?? null` is then the identity). -/
structure InsertSolution : Type where
  solutionId : String
  challengeName : Option String := none
  summary : Option String := none
  headquarters : Option String := none
  organizationType : Option String := none
  problemStatement : Option String := none
  solutionDescription : Option String := none
  targetBeneficiaries : Option String := none
  technologiesUsed : Option String := none
  websiteLinks : Option String := none
  operatingCountries : Option String := none
  teamSize : Option String := none
  duration : Option String := none
  diversityApproaches : Option String := none
  businessModel : Option String := none
  serviceDeliveryModel : Option String := none
  financialSustainability : Option String := none
deriving Repr, DecidableEq

/-- A stored `Evaluation` row.  `results` is the raw parsed provider
response (a JSON blob); `overallVerdict` and `temperature` are stored as
strings, as in the schema. -/
structure Evaluation : Type where
  id : Nat
  solutionId : String
  timestamp : String
  results : JsonVal
  overallVerdict : String
  modelUsed : String
  temperature : String
deriving Repr

structure InsertEvaluation : Type where
  solutionId : String
  timestamp : String
  results : JsonVal
  overallVerdict : String
  modelUsed : String
  temperature : String
deriving Repr

/-- The `MemStorage` class state: three insertion-ordered maps and three
id counters, all initialised to `1`. -/
structure MemStorage : Type where
  users : List (Nat × User)
  solutions : List (Nat × Solution)
  evaluations : List (Nat × Evaluation)
  userId : Nat
  solutionId : Nat
  evaluationId : Nat
deriving Repr

/-- The `MemStorage` constructor. -/
def MemStorage.init : MemStorage :=
  { users := [], solutions := [], evaluations := [],
    userId := 1, solutionId := 1, evaluationId := 1 }

/-- Embeds `createUser`. -/
def createUser (st : MemStorage) (iu : InsertUser) : User × MemStorage :=
  let id := st.userId
  let u : User := { id := id, username := iu.username, password := iu.password }
  (u, { st with users := mapSet st.users id u, userId := id + 1 })

/-- Embeds `getAllSolutions`: `Array.from(this.solutions.values())`. -/
def getAllSolutions (st : MemStorage) : List Solution := mapValues st.solutions

/-- Embeds `clearAllSolutions`: empty the solutions map and reset its id counter. -/
def clearAllSolutions (st : MemStorage) : MemStorage :=
  { st with solutions := [], solutionId := 1 }

/-- Embeds `getSolutionById`: linear scan of the values for a matching natural
key (`solutionId`). -/
def getSolutionById (st : MemStorage) (sid : String) : Option Solution :=
  (mapValues st.solutions).find? (fun s => s.solutionId = sid)

/-- The record built by both branches of `createOrUpdateSolution`: every
descriptive field is set from the insert record (`x ?? null`, the identity
on our `Option String` embedding), never merged from an older record. -/
def solutionOfInsert (id : Nat) (ins : InsertSolution) : Solution :=
  { id := id
    solutionId := ins.solutionId
    challengeName := ins.challengeName
    summary := ins.summary
    headquarters := ins.headquarters
    organizationType := ins.organizationType
    problemStatement := ins.problemStatement
    solutionDescription := ins.solutionDescription
    targetBeneficiaries := ins.targetBeneficiaries
    technologiesUsed := ins.technologiesUsed
    websiteLinks := ins.websiteLinks
    operatingCountries := ins.operatingCountries
    teamSize := ins.teamSize
    duration := ins.duration
    diversityApproaches := ins.diversityApproaches
    businessModel := ins.businessModel
    serviceDeliveryModel := ins.serviceDeliveryModel
    financialSustainability := ins.financialSustainability }

/-- Embeds `createOrUpdateSolution`: update in place (keeping the stored `id`)
when a record with the same natural key exists, otherwise insert under a
fresh id from the counter. -/
def createOrUpdateSolution (st : MemStorage) (ins : InsertSolution) :
    Solution × MemStorage :=
  match getSolutionById st ins.solutionId with
  | some existing =>
    let updated := solutionOfInsert existing.id ins
    (updated, { st with solutions := mapSet st.solutions existing.id updated })
  | none =>
    let id := st.solutionId
    let sol := solutionOfInsert id ins
    (sol, { st with solutions := mapSet st.solutions id sol, solutionId := id + 1 })

/-- Embeds `storeEvaluation`: take a fresh id from the counter and add the
record; nothing is ever deleted from this map. -/
def storeEvaluation (st : MemStorage) (ie : InsertEvaluation) :
    Evaluation × MemStorage :=
  let id := st.evaluationId
  let ev : Evaluation :=
    { id := id, solutionId := ie.solutionId, timestamp := ie.timestamp,
      results := ie.results, overallVerdict := ie.overallVerdict,
      modelUsed := ie.modelUsed, temperature := ie.temperature }
  (ev, { st with evaluations := mapSet st.evaluations id ev, evaluationId := id + 1 })

/-- Embeds `getEvaluationsBySolutionId`: filter the values by natural key, in
insertion order. -/
def getEvaluationsBySolutionId (st : MemStorage) (sid : String) : List Evaluation :=
  (mapValues st.evaluations).filter (fun e => e.solutionId = sid)

/-! ## The zod response schema (`shared/schema.ts`)

`criterionSchema` demands `id : number`, `name : string`,
`result ∈ {PASS, FAIL}`, `reasoning : string`; `evaluationResponseSchema`
demands `criteria : array of criterionSchema` (any length) and
`overallVerdict ∈ {PASS, FAIL}`. -/

inductive Verdict : Type where
  | PASS
  | FAIL
deriving Repr, DecidableEq

def verdictToString : Verdict → String
  | .PASS => "PASS"
  | .FAIL => "FAIL"

/-- Embeds `z.enum(["PASS", "FAIL"])` applied to a JSON value. -/
def parseVerdict : JsonVal → Option Verdict
  | .str "PASS" => some .PASS
  | .str "FAIL" => some .FAIL
  | _ => none

structure CriterionResult : Type where
  id : Int
  name : String
  result : Verdict
  reasoning : String
deriving Repr, DecidableEq

/-- Embeds `criterionSchema.parse` on one JSON value. -/
def parseCriterion (j : JsonVal) : Option CriterionResult :=
  match jsGetProp j "id", jsGetProp j "name",
        jsGetProp j "result", jsGetProp j "reasoning" with
  | some (.num i), some (.str n), some r, some (.str why) =>
    (parseVerdict r).map (fun v => ⟨i, n, v, why⟩)
  | _, _, _, _ => none

/-- Element-wise validation of a criteria array. -/
def parseCriteriaList : List JsonVal → Option (List CriterionResult)
  | [] => some []
  | j :: rest =>
    match parseCriterion j, parseCriteriaList rest with
    | some c, some cs => some (c :: cs)
    | _, _ => none

/-- Embeds `z.array(criterionSchema)`: an array whose every element validates.
No length constraint. -/
def parseCriteria (j : JsonVal) : Option (List CriterionResult) :=
  match j with
  | .arr items => parseCriteriaList items
  | _ => none

structure EvaluationResponse : Type where
  criteria : List CriterionResult
  overallVerdict : Verdict
deriving Repr, DecidableEq

/-- Embeds `evaluationResponseSchema.parse`: `none` stands for a thrown `ZodError`. -/
def evaluationResponseParse (j : JsonVal) : Option EvaluationResponse :=
  match jsGetProp j "criteria", jsGetProp j "overallVerdict" with
  | some c, some v =>
    match parseCriteria c, parseVerdict v with
    | some cs, some vd => some ⟨cs, vd⟩
    | _, _ => none
  | _, _ => none

/-! ## Gemini response extraction (`server/gemini.ts`)

`evaluateSolution` extracts a JSON candidate from the model's raw text:

    const jsonMatch = text.match(/中json\n([\s\S]*?)\n中/) || text.match(/\x7b[\s\S]*\x7d/);
    const jsonString = jsonMatch ? jsonMatch[0].replace(/中json\n|中/g, '').trim() : text;

(with 中 standing for a triple backtick here), then `JSON.parse`s it and
throws unless the parsed value has truthy `criteria` and `overallVerdict`
properties.  Both the parse error and the structure error are caught and
rethrown as the same "Failed to parse Gemini API response" error. -/

def isWsChar (c : Char) : Bool :=
  c == ' ' || c == '\t' || c == '\n' || c == '\r'

def skipWs : List Char → List Char
  | [] => []
  | c :: rest => if isWsChar c then skipWs rest else c :: rest

def lbraceChar : Char := Char.ofNat 123

def rbraceChar : Char := Char.ofNat 125

/-- Does `pat` occur at the head of `l`? -/
def startsWithChars : List Char → List Char → Bool
  | [], _ => true
  | _ :: _, [] => false
  | p :: ps, c :: cs => p == c && startsWithChars ps cs

/-- Index of the first occurrence of `pat` in `l`, if any. -/
def findSubIdx (pat : List Char) : List Char → Option Nat
  | [] => if startsWithChars pat [] then some 0 else none
  | l@(_ :: rest) =>
    if startsWithChars pat l then some 0
    else (findSubIdx pat rest).map (· + 1)

def fencedOpenCs : List Char := "```json\n".data

def fencedCloseCs : List Char := "\n```".data

/-- The regex match for the fenced tier: the leftmost occurrence of the
opening fence that is followed by a closing fence; the lazy `[\s\S]*?`
takes the earliest such closing fence.  Returns the full match. -/
def fencedSearch : List Char → Option (List Char)
  | [] => none
  | l@(_ :: rest) =>
    if startsWithChars fencedOpenCs l then
      match findSubIdx fencedCloseCs (l.drop 8) with
      | some k => some (l.take (8 + k + 4))
      | none => fencedSearch rest
    else fencedSearch rest

def lastIdxOf (c : Char) (l : List Char) : Option Nat :=
  (findSubIdx [c] l.reverse).map (fun k => l.length - 1 - k)

/-- The greedy brace tier: from the first opening brace to the last
closing brace of the whole text (the greedy `[\s\S]*`), when the latter
comes after the former. -/
def braceSearch (cs : List Char) : Option (List Char) :=
  match findSubIdx [lbraceChar] cs, lastIdxOf rbraceChar cs with
  | some i, some j => if i < j then some ((cs.drop i).take (j - i + 1)) else none
  | _, _ => none

/-- The `.replace(/中json\n|中/g, '')` pass on the match (中 = triple
backtick): scan left to right, at each position preferring the longer
`json`-labelled fence alternative. -/
def stripFences : Nat → List Char → List Char
  | 0, l => l
  | _, [] => []
  | fuel + 1, l@(c :: rest) =>
    if startsWithChars fencedOpenCs l then stripFences fuel (l.drop 8)
    else if startsWithChars ("```".data) l then stripFences fuel (l.drop 3)
    else c :: stripFences fuel rest

/-- Embeds `.trim()`. -/
def trimChars (l : List Char) : List Char :=
  ((l.dropWhile isWsChar).reverse.dropWhile isWsChar).reverse

/-- Embeds `jsonMatch[0].replace(/中json\n|中/g, '').trim()`. -/
def cleanupMatch (m : List Char) : String :=
  String.mk (trimChars (stripFences m.length m))

/-- The candidate JSON string: fenced tier, else brace tier (both get the
fence markers stripped and are trimmed), else the raw text unchanged. -/
def extractJsonString (text : String) : String :=
  let cs := text.data
  let m := match fencedSearch cs with
    | some mm => some mm
    | none => braceSearch cs
  match m with
  | some mm => cleanupMatch mm
  | none => text

/-! ### `JSON.parse`

A recursive-descent embedding of `JSON.parse`, with numeric literals
restricted to integers (no theorem exercises fractions or exponents). -/

def hexVal (c : Char) : Option Nat :=
  if '0' ≤ c ∧ c ≤ '9' then some (c.toNat - '0'.toNat)
  else if 'a' ≤ c ∧ c ≤ 'f' then some (c.toNat - 'a'.toNat + 10)
  else if 'A' ≤ c ∧ c ≤ 'F' then some (c.toNat - 'A'.toNat + 10)
  else none

def escChar (e : Char) : Option Char :=
  if e == '"' || e == '\\' || e == '/' then some e
  else if e == 'n' then some '\n'
  else if e == 't' then some '\t'
  else if e == 'r' then some '\r'
  else if e == 'b' then some (Char.ofNat 8)
  else if e == 'f' then some (Char.ofNat 12)
  else none

/-- Parse the body of a string literal (after the opening quote), up to
and including the closing quote. -/
def parseStringAux : Nat → List Char → Option (List Char × List Char)
  | 0, _ => none
  | _, [] => none
  | fuel + 1, c :: rest =>
    if c == '"' then some ([], rest)
    else if c == '\\' then
      match rest with
      | [] => none
      | 'u' :: a :: b :: c2 :: d :: rest2 =>
        match hexVal a, hexVal b, hexVal c2, hexVal d with
        | some ha, some hb, some hc, some hd =>
          (parseStringAux fuel rest2).map
            (fun p => (Char.ofNat (((ha * 16 + hb) * 16 + hc) * 16 + hd) :: p.1, p.2))
        | _, _, _, _ => none
      | e :: rest2 =>
        match escChar e with
        | some ce => (parseStringAux fuel rest2).map (fun p => (ce :: p.1, p.2))
        | none => none
    else (parseStringAux fuel rest).map (fun p => (c :: p.1, p.2))

def parseStringChars (l : List Char) : Option (List Char × List Char) :=
  parseStringAux (l.length + 1) l

def parseNatChars (l : List Char) : Option (Nat × List Char) :=
  let ds := l.takeWhile (fun c => c.isDigit)
  if ds.isEmpty then none
  else some (ds.foldl (fun acc c => acc * 10 + (c.toNat - '0'.toNat)) 0,
             l.dropWhile (fun c => c.isDigit))

/-- Integer numeric literals; a following `.`, `e` or `E` is out of the
embedded subset and rejected. -/
def parseNumberChars (l : List Char) : Option (JsonVal × List Char) :=
  let signed := fun (neg : Bool) (l2 : List Char) =>
    match parseNatChars l2 with
    | none => none
    | some (n, r) =>
      match r with
      | c :: _ =>
        if c == '.' || c == 'e' || c == 'E' then none
        else some (JsonVal.num (if neg then -(n : Int) else (n : Int)), r)
      | [] => some (JsonVal.num (if neg then -(n : Int) else (n : Int)), r)
  match l with
  | '-' :: rest => signed true rest
  | _ => signed false l

mutual

def parseValueAux : Nat → List Char → Option (JsonVal × List Char)
  | 0, _ => none
  | fuel + 1, l =>
    match skipWs l with
    | [] => none
    | c :: rest =>
      if c == '"' then
        (parseStringChars rest).map (fun p => (.str (String.mk p.1), p.2))
      else if c == lbraceChar then
        match skipWs rest with
        | [] => none
        | c2 :: r2 =>
          if c2 == rbraceChar then some (.obj [], r2)
          else (parseFieldsAux fuel (c2 :: r2)).map (fun p => (.obj p.1, p.2))
      else if c == '[' then
        match skipWs rest with
        | [] => none
        | c2 :: r2 =>
          if c2 == ']' then some (.arr [], r2)
          else (parseItemsAux fuel (c2 :: r2)).map (fun p => (.arr p.1, p.2))
      else
        match c :: rest with
        | 'n' :: 'u' :: 'l' :: 'l' :: r => some (.null, r)
        | 't' :: 'r' :: 'u' :: 'e' :: r => some (.bool true, r)
        | 'f' :: 'a' :: 'l' :: 's' :: 'e' :: r => some (.bool false, r)
        | l2 => parseNumberChars l2

def parseItemsAux : Nat → List Char → Option (List JsonVal × List Char)
  | 0, _ => none
  | fuel + 1, l =>
    match parseValueAux fuel l with
    | none => none
    | some (v, r) =>
      match skipWs r with
      | [] => none
      | c :: r2 =>
        if c == ',' then (parseItemsAux fuel r2).map (fun p => (v :: p.1, p.2))
        else if c == ']' then some ([v], r2)
        else none

def parseFieldsAux : Nat → List Char → Option (List (String × JsonVal) × List Char)
  | 0, _ => none
  | fuel + 1, l =>
    match skipWs l with
    | [] => none
    | c :: rest =>
      if c == '"' then
        match parseStringChars rest with
        | none => none
        | some (key, r) =>
          match skipWs r with
          | [] => none
          | c2 :: r2 =>
            if c2 == ':' then
              match parseValueAux fuel r2 with
              | none => none
              | some (v, r3) =>
                match skipWs r3 with
                | [] => none
                | c3 :: r4 =>
                  if c3 == ',' then
                    (parseFieldsAux fuel r4).map
                      (fun p => ((String.mk key, v) :: p.1, p.2))
                  else if c3 == rbraceChar then some ([(String.mk key, v)], r4)
                  else none
            else none
      else none

end

/-- Embeds `JSON.parse`: a full-string parse (no trailing non-whitespace). -/
def parseJson (s : String) : Option JsonVal :=
  let cs := s.data
  match parseValueAux (cs.length + 4) cs with
  | some (j, rest) => if (skipWs rest).isEmpty then some j else none
  | none => none

/-- The tail of `evaluateSolution` after the model call: extract the
candidate, `JSON.parse` it, and require truthy `criteria` and
`overallVerdict` properties.  Both failure modes surface as the same
thrown error, with no internal retry; `.ok` returns the parsed response
as-is. -/
def extractAndParseGemini (text : String) : Except String JsonVal :=
  let jsonString := extractJsonString text
  match parseJson jsonString with
  | none => .error "Failed to parse Gemini API response"
  | some parsed =>
    if jsTruthyOpt (jsGetProp parsed "criteria") &&
       jsTruthyOpt (jsGetProp parsed "overallVerdict") then .ok parsed
    else .error "Failed to parse Gemini API response"

/-! ## The evaluate route (`POST /api/evaluate/:id` in `server/routes.ts`)

Order of checks in the handler: rate limit first (mutating the limiter),
then the body check (`!model || temperature === undefined`), then the
solution lookup, then the Gemini call, zod validation, and the store.
Every thrown error lands in the route's catch and becomes a 500. -/

inductive EvaluateReply : Type where
  | tooManyRequests (retryAfter : Nat)
  | badRequest
  | notFound
  | success (body : JsonVal)
  | serverFailure
deriving Repr

/-- The request body; `temperature` is a JSON number (`0` is accepted:
the check is `=== undefined`, not falsiness). -/
structure EvalRequestBody : Type where
  model : Option String
  temperature : Option Rat

/-- Embeds `!model`: absent or empty string. -/
def modelFalsy : Option String → Bool
  | none => true
  | some s => s == ""

/-- Embeds `Math.ceil(timeToWait / 1000)` for a non-negative wait. -/
def ceilSeconds (t : Int) : Nat := (t.toNat + 999) / 1000

/-- Embeds `temperature.toString()`.  JS number formatting is not modelled
beyond an injective stand-in; no theorem depends on this string. -/
def tempToString (q : Rat) : String := toString q

/-- The `POST /api/evaluate/:id` handler.  The outcome of
`evaluateSolution` (a provider/transport error or the parsed raw
response) is passed in as `gemini`; `nowIso` stands for
`new Date().toISOString()`. -/
def handleEvaluate (st : MemStorage) (limiter : List Int) (now : Int)
    (nowIso : String) (paramId : String) (body : EvalRequestBody)
    (gemini : Except String JsonVal) :
    EvaluateReply × MemStorage × List Int :=
  let check := isRateLimited 5 60000 now limiter
  let limiter' := check.2
  if check.1 then
    (.tooManyRequests (ceilSeconds (getTimeToWait 60000 now limiter')), st, limiter')
  else if modelFalsy body.model || body.temperature.isNone then
    (.badRequest, st, limiter')
  else
    match getSolutionById st paramId with
    | none => (.notFound, st, limiter')
    | some sol =>
      match gemini with
      | .error _ => (.serverFailure, st, limiter')
      | .ok raw =>
        match evaluationResponseParse raw with
        | none => (.serverFailure, st, limiter')
        | some validated =>
          let ie : InsertEvaluation :=
            { solutionId := sol.solutionId
              timestamp := nowIso
              results := raw
              overallVerdict := verdictToString validated.overallVerdict
              modelUsed := body.model.getD ""
              temperature := tempToString (body.temperature.getD 0) }
          (.success raw, (storeEvaluation st ie).2, limiter')

/-! ## CSV ingestion

The row-to-record mapping shared verbatim by `loadSolutionsFromCSV`
(`server/index.ts`) and the upload route (`server/routes.ts`): each
column is read with `data[header] || ""`.  A parsed CSV row is a map from
header text to cell text. -/

def Row : Type := List (String × String)

/-- Embeds `record[header] || ""`: missing and empty both give `""`. -/
def rowGet (r : Row) (h : String) : String :=
  match (mapFind r h) with
  | some v => v
  | none => ""

/-- The object literal built from one CSV row (identical field list in
both ingestion entry points). -/
def insertOfRow (r : Row) : InsertSolution :=
  { solutionId := rowGet r "Solution ID"
    challengeName := some (rowGet r "Challenge Name")
    summary := some (rowGet r "Provide a one-line summary of your solution.")
    headquarters := some (rowGet r "In what city, town, or region is your solution team headquartered?")
    organizationType := some (rowGet r "What type of organization is your solution team?")
    problemStatement := some (rowGet r "What specific problem are you solving?")
    solutionDescription := some (rowGet r "What is your solution?")
    targetBeneficiaries := some (rowGet r "Who does your solution serve, and in what ways will the solution impact their lives? ")
    technologiesUsed := some (rowGet r "Please select the technologies currently used in your solution:")
    websiteLinks := some (rowGet r "If your solution has a website, app, or social media handle, provide the link(s) here:")
    operatingCountries := some (rowGet r "In which countries do you currently operate?")
    teamSize := some (rowGet r "How many people work on your solution team?")
    duration := some (rowGet r "How long have you been working on your solution? ")
    diversityApproaches := some (rowGet r "Tell us about how you ensure that your team is diverse, minimizes barriers to opportunity for staff, and provides a welcoming and inclusive environment for all team members.")
    businessModel := some (rowGet r "What is your business model?")
    serviceDeliveryModel := some (rowGet r "Do you primarily provide products or services directly to individuals, to other organizations, or to the government?")
    financialSustainability := some (rowGet r "What is your plan for becoming financially sustainable, and what evidence can you provide that this plan has been successful so far?") }

/-- The record-reading loop of `loadSolutionsFromCSV`: a row with a falsy
`"Solution ID"` cell or an already-processed key is skipped; otherwise
the transformed record is added to the `processedSolutions` map. -/
def processRecords : List Row → List (String × InsertSolution) → List (String × InsertSolution)
  | [], processed => processed
  | r :: rest, processed =>
    if rowGet r "Solution ID" == "" || mapHasKey processed (rowGet r "Solution ID") then
      processRecords rest processed
    else
      processRecords rest
        (mapSet processed (insertOfRow r).solutionId (insertOfRow r))

/-- Embeds `for (const solution of …) await storage.createOrUpdateSolution(solution)`. -/
def ingestInserts (st : MemStorage) : List InsertSolution → MemStorage
  | [] => st
  | ins :: rest => ingestInserts (createOrUpdateSolution st ins).2 rest

/-- The startup ingestion run (`loadSolutionsFromCSV`): dedup pass over
the parsed rows, then upsert the unique records in first-occurrence
order. -/
def loadSolutionsRun (rows : List Row) (st : MemStorage) : MemStorage :=
  ingestInserts st (mapValues (processRecords rows []))

/-- The upload-route ingestion (`POST /api/solutions/upload`): every
parsed row is transformed and upserted in file order — no
within-run dedup pass. -/
def uploadRun (rows : List Row) (st : MemStorage) : MemStorage :=
  ingestInserts st (rows.map insertOfRow)

/-! ## The batch orchestrator (`evaluateAll` in `BatchEvaluation.tsx`)

The per-item `while (!success && attempts < maxAttempts)` loop increments
`attempts` at the top of every iteration — the 429 `continue` included —
so at most 3 fetches ever happen for one item.  Waits are recorded as
trace events; `Math.random()` draws come in as explicit streams indexed
by the attempt number. -/

inductive FetchReply : Type where
  | rateLimited (retryAfter : Option Nat)
  | httpFailure
  | success (body : JsonVal)
deriving Repr

inductive BatchEvent : Type where
  | delayWait (ms : Rat)
  | fetchAttempt (reply : FetchReply)
  | rateWait (ms : Rat)
  | backoffWait (ms : Rat)
deriving Repr

/-- Embeds `errorData.retryAfter || 60`: absent (and the falsy `0`) default
to 60 seconds. -/
def retryAfterOrDefault : Option Nat → Nat
  | none => 60
  | some n => if n = 0 then 60 else n

/-- Embeds `Math.min(2000 + Math.floor(i / 5) * 1000, 6000)`. -/
def baseDelay (i : Nat) : Nat := min (2000 + (i / 5) * 1000) 6000

/-- One item's retry loop, entered with `attempts` tries already used and
`remaining = 3 - attempts` budget left.  `reply a` is the server's
response to the `a`-th fetch for this item; `rand429 a` and `randBack a`
are the `Math.random()` draws for the corresponding waits.  Returns the
item's result (if any fetch succeeded) and the event trace. -/
def itemLoopAux (i : Nat) (reply : Nat → FetchReply) (rand429 randBack : Nat → Rat) :
    Nat → Nat → Option JsonVal × List BatchEvent
  | 0, _ => (none, [])
  | remaining + 1, attempts =>
    let a := attempts + 1
    let pre : List BatchEvent :=
      if 0 < i then [.delayWait (baseDelay i : Rat)] else []
    match reply a with
    | .rateLimited ra =>
      let w : Rat := (retryAfterOrDefault ra : Rat) * 1000 + rand429 a * 2000
      let next := itemLoopAux i reply rand429 randBack remaining a
      (next.1, pre ++ [.fetchAttempt (.rateLimited ra), .rateWait w] ++ next.2)
    | .success b => (some b, pre ++ [.fetchAttempt (.success b)])
    | .httpFailure =>
      if a < 3 then
        let w : Rat := min 30000 ((2 ^ a : Rat) * 5000 + randBack a * 3000)
        let next := itemLoopAux i reply rand429 randBack remaining a
        (next.1, pre ++ [.fetchAttempt .httpFailure, .backoffWait w] ++ next.2)
      else (none, pre ++ [.fetchAttempt .httpFailure])

/-- One item of the batch, from a fresh `attempts = 0`. -/
def runItem (i : Nat) (reply : Nat → FetchReply) (rand429 randBack : Nat → Rat) :
    Option JsonVal × List BatchEvent :=
  itemLoopAux i reply rand429 randBack 3 0

/-- Number of fetches in a trace. -/
def countAttempts (evs : List BatchEvent) : Nat :=
  (evs.filter (fun e => match e with | .fetchAttempt _ => true | _ => false)).length

/-- The `for` loop of `evaluateAll`: items strictly in order, one at a
time; a successful item writes `results[solution.solutionId] = result`
(JS object assignment), a failed item writes nothing and the loop
continues. -/
def batchLoop (replies : Nat → Nat → FetchReply) (rand429 randBack : Nat → Nat → Rat) :
    List Solution → Nat → List (String × JsonVal) →
    List (String × JsonVal) × List BatchEvent
  | [], _, results => (results, [])
  | sol :: rest, i, results =>
    let item := runItem i (replies i) (rand429 i) (randBack i)
    let results' := match item.1 with
      | some b => mapSet results sol.solutionId b
      | none => results
    let tail := batchLoop replies rand429 randBack rest (i + 1) results'
    (tail.1, item.2 ++ tail.2)

/-- Embeds `evaluateAll` over a solutions list: final results mapping and trace. -/
def evaluateAll (replies : Nat → Nat → FetchReply) (rand429 randBack : Nat → Nat → Rat)
    (sols : List Solution) : List (String × JsonVal) × List BatchEvent :=
  batchLoop replies rand429 randBack sols 0 []

/-- The completion toast: `Successfully evaluated ${Object.keys(results).length}
of ${solutions.length} solutions.` -/
def batchSummary (replies : Nat → Nat → FetchReply) (rand429 randBack : Nat → Nat → Rat)
    (sols : List Solution) : Nat × Nat :=
  ((evaluateAll replies rand429 randBack sols).1.length, sols.length)

/-! ## Shared lemmas -/

theorem purgeExpired_of_all_fresh (w now : Int) (l : List Int)
    (h : ∀ t ∈ l, now - t < w) : purgeExpired w now l = l := by
  unfold purgeExpired
  rw [List.filter_eq_self]
  intro a ha
  simpa using h a ha

theorem purgeExpired_cons_stale (w now t : Int) (l : List Int)
    (h : ¬ (now - t < w)) :
    purgeExpired w now (t :: l) = purgeExpired w now l := by
  simp [purgeExpired, List.filter_cons, h]

theorem isRateLimited_false_state (m : Nat) (w now : Int) (l : List Int)
    (h : (isRateLimited m w now l).1 = false) :
    isRateLimited m w now l = (false, purgeExpired w now l ++ [now]) := by
  by_cases hc : m ≤ (purgeExpired w now l).length
  · simp [isRateLimited, hc] at h
  · simp [isRateLimited, hc]

theorem purge_append_now_ne (w now : Int) (l : List Int) (hw : 0 < w) :
    purgeExpired w now l ++ [now] ≠ l := by
  intro h
  have h2 := congrArg (purgeExpired w now) h
  have h3 : purgeExpired w now (purgeExpired w now l ++ [now])
      = purgeExpired w now l ++ [now] := by
    unfold purgeExpired
    rw [List.filter_append, List.filter_filter]
    simp
    omega
  rw [h3] at h2
  have hlen := congrArg List.length h2
  simp at hlen

theorem mapSet_fresh_append {α β : Type} [DecidableEq α]
    (m : List (α × β)) (k : α) (v : β) (h : ∀ kv ∈ m, kv.1 ≠ k) :
    mapSet m k v = m ++ [(k, v)] := by
  induction m with
  | nil => rfl
  | cons kv rest ih =>
    have hk : kv.1 ≠ k := h kv (by simp)
    simp [mapSet, hk, ih (fun kv' h' => h kv' (by simp [h']))]

theorem mapSet_replace_last {α β : Type} [DecidableEq α]
    (m : List (α × β)) (k : α) (v v' : β) (h : ∀ kv ∈ m, kv.1 ≠ k) :
    mapSet (m ++ [(k, v)]) k v' = m ++ [(k, v')] := by
  induction m with
  | nil => simp [mapSet]
  | cons kv rest ih =>
    have hk : kv.1 ≠ k := h kv (by simp)
    simp [mapSet, hk, ih (fun kv' h' => h kv' (by simp [h']))]

theorem mapValues_append {α β : Type} (a b : List (α × β)) :
    mapValues (a ++ b) = mapValues a ++ mapValues b := by
  simp [mapValues]

/-! ## Claim C1 — rate limiter boundary behaviour -/

/-- Claim C1 (confirmed).  With `maxRequests = 5`, `windowSeconds = 60`:
five calls in quick succession (monotone times within one window) each
return `false` and record their timestamp; a sixth call still inside the
window returns `true` and records nothing; a later call made more than
60 s after the first call returns `false` again. -/
theorem rateLimiter_window_boundary
    (t1 t2 t3 t4 t5 t6 t7 : Int)
    (h12 : t1 ≤ t2) (h23 : t2 ≤ t3) (h34 : t3 ≤ t4) (h45 : t4 ≤ t5)
    (h56 : t5 ≤ t6) (_h67 : t6 ≤ t7)
    (hwin : t6 - t1 < 60000) (hpast : 60000 < t7 - t1) :
    isRateLimited 5 60000 t1 [] = (false, [t1]) ∧
    isRateLimited 5 60000 t2 [t1] = (false, [t1, t2]) ∧
    isRateLimited 5 60000 t3 [t1, t2] = (false, [t1, t2, t3]) ∧
    isRateLimited 5 60000 t4 [t1, t2, t3] = (false, [t1, t2, t3, t4]) ∧
    isRateLimited 5 60000 t5 [t1, t2, t3, t4] = (false, [t1, t2, t3, t4, t5]) ∧
    isRateLimited 5 60000 t6 [t1, t2, t3, t4, t5] = (true, [t1, t2, t3, t4, t5]) ∧
    (isRateLimited 5 60000 t7 [t1, t2, t3, t4, t5]).1 = false := by
  have p1 : purgeExpired 60000 t1 ([] : List Int) = [] := rfl
  have p2 : purgeExpired 60000 t2 [t1] = [t1] := by
    apply purgeExpired_of_all_fresh
    intro t ht; simp at ht; omega
  have p3 : purgeExpired 60000 t3 [t1, t2] = [t1, t2] := by
    apply purgeExpired_of_all_fresh
    intro t ht; simp at ht; rcases ht with rfl | rfl <;> omega
  have p4 : purgeExpired 60000 t4 [t1, t2, t3] = [t1, t2, t3] := by
    apply purgeExpired_of_all_fresh
    intro t ht; simp at ht; rcases ht with rfl | rfl | rfl <;> omega
  have p5 : purgeExpired 60000 t5 [t1, t2, t3, t4] = [t1, t2, t3, t4] := by
    apply purgeExpired_of_all_fresh
    intro t ht; simp at ht; rcases ht with rfl | rfl | rfl | rfl <;> omega
  have p6 : purgeExpired 60000 t6 [t1, t2, t3, t4, t5] = [t1, t2, t3, t4, t5] := by
    apply purgeExpired_of_all_fresh
    intro t ht; simp at ht; rcases ht with rfl | rfl | rfl | rfl | rfl <;> omega
  refine ⟨?_, ?_, ?_, ?_, ?_, ?_, ?_⟩
  · simp [isRateLimited, p1]
  · simp [isRateLimited, p2]
  · simp [isRateLimited, p3]
  · simp [isRateLimited, p4]
  · simp [isRateLimited, p5]
  · simp [isRateLimited, p6]
  · have hdrop : purgeExpired 60000 t7 [t1, t2, t3, t4, t5]
        = purgeExpired 60000 t7 [t2, t3, t4, t5] :=
      purgeExpired_cons_stale _ _ _ _ (by omega)
    have hlen : (purgeExpired 60000 t7 [t2, t3, t4, t5]).length ≤ 4 := by
      unfold purgeExpired
      exact le_trans (List.length_filter_le _ _) (by simp)
    have hno : ¬ (5 ≤ (purgeExpired 60000 t7 [t1, t2, t3, t4, t5]).length) := by
      rw [hdrop]; omega
    simp [isRateLimited, hno]

/-- Witness for C1: concrete times 0,0,0,0,0 (quick succession), a sixth
call at 1 ms, and a seventh call at 60001 ms. -/
theorem rateLimiter_window_boundary_witness :
    isRateLimited 5 60000 0 [] = (false, [0]) ∧
    isRateLimited 5 60000 0 [0] = (false, [0, 0]) ∧
    isRateLimited 5 60000 0 [0, 0] = (false, [0, 0, 0]) ∧
    isRateLimited 5 60000 0 [0, 0, 0] = (false, [0, 0, 0, 0]) ∧
    isRateLimited 5 60000 0 [0, 0, 0, 0] = (false, [0, 0, 0, 0, 0]) ∧
    isRateLimited 5 60000 1 [0, 0, 0, 0, 0] = (true, [0, 0, 0, 0, 0]) ∧
    (isRateLimited 5 60000 60001 [0, 0, 0, 0, 0]).1 = false :=
  rateLimiter_window_boundary 0 0 0 0 0 1 60001
    (by decide) (by decide) (by decide) (by decide) (by decide) (by decide)
    (by decide) (by decide)

/-! ## Claim C9 — clearSolutions frame -/

/-- Claim C9 (confirmed).  `clearAllSolutions` empties the solutions map
and resets the solution id counter to 1, leaving evaluations, users and
their counters untouched; the next record created after a clear gets
internal id 1. -/
theorem clearSolutions_frame (st : MemStorage) (ins : InsertSolution) :
    getAllSolutions (clearAllSolutions st) = [] ∧
    (clearAllSolutions st).solutionId = 1 ∧
    (clearAllSolutions st).evaluations = st.evaluations ∧
    (clearAllSolutions st).users = st.users ∧
    (clearAllSolutions st).evaluationId = st.evaluationId ∧
    (clearAllSolutions st).userId = st.userId ∧
    (createOrUpdateSolution (clearAllSolutions st) ins).1.id = 1 := by
  refine ⟨rfl, rfl, rfl, rfl, rfl, rfl, ?_⟩
  simp [createOrUpdateSolution, getSolutionById, clearAllSolutions, mapValues,
    solutionOfInsert]

/-! ## Claim C10 — the evaluate route consumes a limiter slot on its 400/404 paths -/

/-- Claim C10 (confirmed).  In the `POST /api/evaluate/:id` handler the
rate-limit check runs before body validation and before the solution
lookup, and a non-limited `isRateLimited` call records `now`; so a
request that is then rejected with 400 (missing model/temperature) or
404 (unknown solution) still mutates the limiter state — it becomes the
purged list plus `now`, never the original list — while the store is
untouched. -/
theorem evaluate_route_error_paths_consume_slot
    (st : MemStorage) (limiter : List Int) (now : Int)
    (nowIso paramId : String) (body : EvalRequestBody)
    (gemini : Except String JsonVal)
    (hfree : (isRateLimited 5 60000 now limiter).1 = false)
    (herr : (modelFalsy body.model || body.temperature.isNone) = true ∨
            getSolutionById st paramId = none) :
    ((handleEvaluate st limiter now nowIso paramId body gemini).1 = .badRequest ∨
     (handleEvaluate st limiter now nowIso paramId body gemini).1 = .notFound) ∧
    (handleEvaluate st limiter now nowIso paramId body gemini).2.2
      = purgeExpired 60000 now limiter ++ [now] ∧
    (handleEvaluate st limiter now nowIso paramId body gemini).2.2 ≠ limiter ∧
    (handleEvaluate st limiter now nowIso paramId body gemini).2.1 = st := by
  have hstate := isRateLimited_false_state 5 60000 now limiter hfree
  by_cases hb : (modelFalsy body.model || body.temperature.isNone) = true
  · refine ⟨Or.inl ?_, ?_, ?_, ?_⟩ <;>
      simp [handleEvaluate, hstate, hb, purge_append_now_ne 60000 now limiter (by omega)]
  · have hnf : getSolutionById st paramId = none := by
      rcases herr with h | h
      · exact absurd h hb
      · exact h
    refine ⟨Or.inr ?_, ?_, ?_, ?_⟩ <;>
      simp [handleEvaluate, hstate, hb, hnf,
        purge_append_now_ne 60000 now limiter (by omega)]

/-- Witness for C10: empty limiter, empty store, request with a missing
model at time 0. -/
theorem evaluate_route_error_paths_consume_slot_witness :
    ((handleEvaluate MemStorage.init [] 0 "" "S" ⟨none, none⟩ (.error "")).1
        = .badRequest ∨
     (handleEvaluate MemStorage.init [] 0 "" "S" ⟨none, none⟩ (.error "")).1
        = .notFound) ∧
    (handleEvaluate MemStorage.init [] 0 "" "S" ⟨none, none⟩ (.error "")).2.2
      = purgeExpired 60000 0 [] ++ [0] ∧
    (handleEvaluate MemStorage.init [] 0 "" "S" ⟨none, none⟩ (.error "")).2.2 ≠ [] ∧
    (handleEvaluate MemStorage.init [] 0 "" "S" ⟨none, none⟩ (.error "")).2.1
      = MemStorage.init :=
  evaluate_route_error_paths_consume_slot MemStorage.init [] 0 "" "S"
    ⟨none, none⟩ (.error "") (by decide) (Or.inl (by decide))

/-! ## Claim C7 — evaluation storage is append-only -/

/-- The `MemStorage` invariant for the evaluations map: every key is
below the id counter (true initially and preserved by every store). -/
def evalWF (st : MemStorage) : Prop :=
  ∀ kv ∈ st.evaluations, kv.1 < st.evaluationId

/-- Claim C7 (confirmed).  `storeEvaluation` assigns fresh, strictly
increasing ids and appends without overwriting: storing two evaluations
for the same natural key leaves the previous records intact, appends the
two new distinct records in call order, and
`getEvaluationsBySolutionId` returns exactly that key's records in
insertion order. -/
theorem storeEvaluation_append_only (st : MemStorage) (hwf : evalWF st)
    (ie1 ie2 : InsertEvaluation) (hsame : ie2.solutionId = ie1.solutionId) :
    (storeEvaluation st ie1).1.id < (storeEvaluation (storeEvaluation st ie1).2 ie2).1.id ∧
    (∀ kv ∈ st.evaluations, kv.1 ≠ (storeEvaluation st ie1).1.id) ∧
    (storeEvaluation (storeEvaluation st ie1).2 ie2).2.evaluations
      = st.evaluations ++
        [((storeEvaluation st ie1).1.id, (storeEvaluation st ie1).1),
         ((storeEvaluation (storeEvaluation st ie1).2 ie2).1.id,
          (storeEvaluation (storeEvaluation st ie1).2 ie2).1)] ∧
    getEvaluationsBySolutionId (storeEvaluation (storeEvaluation st ie1).2 ie2).2 ie1.solutionId
      = getEvaluationsBySolutionId st ie1.solutionId ++
        [(storeEvaluation st ie1).1, (storeEvaluation (storeEvaluation st ie1).2 ie2).1] ∧
    evalWF (storeEvaluation (storeEvaluation st ie1).2 ie2).2 := by
  have hfresh1 : ∀ kv ∈ st.evaluations, kv.1 ≠ st.evaluationId := by
    intro kv hkv
    have := hwf kv hkv
    omega
  have hset1 : mapSet st.evaluations st.evaluationId
      { id := st.evaluationId, solutionId := ie1.solutionId,
        timestamp := ie1.timestamp, results := ie1.results,
        overallVerdict := ie1.overallVerdict, modelUsed := ie1.modelUsed,
        temperature := ie1.temperature }
      = st.evaluations ++
        [(st.evaluationId,
          { id := st.evaluationId, solutionId := ie1.solutionId,
            timestamp := ie1.timestamp, results := ie1.results,
            overallVerdict := ie1.overallVerdict, modelUsed := ie1.modelUsed,
            temperature := ie1.temperature })] :=
    mapSet_fresh_append _ _ _ hfresh1
  have hfresh2 : ∀ kv ∈ st.evaluations ++
      [(st.evaluationId,
        ({ id := st.evaluationId, solutionId := ie1.solutionId,
           timestamp := ie1.timestamp, results := ie1.results,
           overallVerdict := ie1.overallVerdict, modelUsed := ie1.modelUsed,
           temperature := ie1.temperature } : Evaluation))],
      kv.1 ≠ st.evaluationId + 1 := by
    intro kv hkv
    rcases List.mem_append.mp hkv with h | h
    · have := hwf kv h
      omega
    · have h2 : kv.1 = st.evaluationId := by
        simp at h
        rw [h]
      omega
  refine ⟨?_, ?_, ?_, ?_, ?_⟩
  · simp [storeEvaluation]
  · simpa [storeEvaluation] using hfresh1
  · simp only [storeEvaluation, hset1]
    rw [mapSet_fresh_append _ _ _ (by simpa [storeEvaluation, hset1] using hfresh2)]
    rw [List.append_assoc]
    rfl
  · simp only [getEvaluationsBySolutionId, storeEvaluation, hset1]
    rw [mapSet_fresh_append _ _ _ (by simpa [storeEvaluation, hset1] using hfresh2)]
    rw [List.append_assoc]
    rw [mapValues_append, List.filter_append]
    congr 1
    simp [mapValues, hsame]
  · intro kv hkv
    simp only [storeEvaluation, hset1] at hkv
    rw [mapSet_fresh_append _ _ _ (by simpa [storeEvaluation, hset1] using hfresh2)] at hkv
    simp only [storeEvaluation]
    rcases List.mem_append.mp hkv with h | h
    · rcases List.mem_append.mp h with h2 | h2
      · have := hwf kv h2
        omega
      · have h3 : kv.1 = st.evaluationId := by
          simp at h2
          rw [h2]
        omega
    · have h3 : kv.1 = st.evaluationId + 1 := by
        simp at h
        rw [h]
      omega

/-- Witness for C7: two stores on the fresh storage. -/
theorem storeEvaluation_append_only_witness :
    (storeEvaluation MemStorage.init
        ⟨"S1", "t1", .null, "PASS", "m", "0.7"⟩).1.id <
      (storeEvaluation (storeEvaluation MemStorage.init
          ⟨"S1", "t1", .null, "PASS", "m", "0.7"⟩).2
        ⟨"S1", "t2", .null, "FAIL", "m", "0.7"⟩).1.id ∧
    (∀ kv ∈ MemStorage.init.evaluations,
      kv.1 ≠ (storeEvaluation MemStorage.init
        ⟨"S1", "t1", .null, "PASS", "m", "0.7"⟩).1.id) ∧
    (storeEvaluation (storeEvaluation MemStorage.init
        ⟨"S1", "t1", .null, "PASS", "m", "0.7"⟩).2
      ⟨"S1", "t2", .null, "FAIL", "m", "0.7"⟩).2.evaluations
      = MemStorage.init.evaluations ++
        [((storeEvaluation MemStorage.init
            ⟨"S1", "t1", .null, "PASS", "m", "0.7"⟩).1.id,
          (storeEvaluation MemStorage.init
            ⟨"S1", "t1", .null, "PASS", "m", "0.7"⟩).1),
         ((storeEvaluation (storeEvaluation MemStorage.init
              ⟨"S1", "t1", .null, "PASS", "m", "0.7"⟩).2
            ⟨"S1", "t2", .null, "FAIL", "m", "0.7"⟩).1.id,
          (storeEvaluation (storeEvaluation MemStorage.init
              ⟨"S1", "t1", .null, "PASS", "m", "0.7"⟩).2
            ⟨"S1", "t2", .null, "FAIL", "m", "0.7"⟩).1)] ∧
    getEvaluationsBySolutionId (storeEvaluation (storeEvaluation MemStorage.init
        ⟨"S1", "t1", .null, "PASS", "m", "0.7"⟩).2
      ⟨"S1", "t2", .null, "FAIL", "m", "0.7"⟩).2 "S1"
      = getEvaluationsBySolutionId MemStorage.init "S1" ++
        [(storeEvaluation MemStorage.init
            ⟨"S1", "t1", .null, "PASS", "m", "0.7"⟩).1,
         (storeEvaluation (storeEvaluation MemStorage.init
              ⟨"S1", "t1", .null, "PASS", "m", "0.7"⟩).2
            ⟨"S1", "t2", .null, "FAIL", "m", "0.7"⟩).1] ∧
    evalWF (storeEvaluation (storeEvaluation MemStorage.init
        ⟨"S1", "t1", .null, "PASS", "m", "0.7"⟩).2
      ⟨"S1", "t2", .null, "FAIL", "m", "0.7"⟩).2 :=
  storeEvaluation_append_only MemStorage.init
    (by intro kv hkv; simp [MemStorage.init] at hkv)
    ⟨"S1", "t1", .null, "PASS", "m", "0.7"⟩
    ⟨"S1", "t2", .null, "FAIL", "m", "0.7"⟩ rfl

/-! ## Claim C4 — upsert replaces fields and preserves the internal id -/

/-- The `MemStorage` invariant for the solutions map: every key is below
the id counter. -/
def solWF (st : MemStorage) : Prop :=
  ∀ kv ∈ st.solutions, kv.1 < st.solutionId

/-- Claim C4 (confirmed).  For two insert records sharing a natural key
that is new to the store, `upsert(R1); upsert(R2)` leaves exactly one
record under that key; its descriptive fields are R2's values (fields
absent from R2 become null, not R1's values — `solutionOfInsert` copies
every field from the insert record) and its id is the one assigned at
R1's insert. -/
theorem upsert_replaces_fields_preserves_id (st : MemStorage) (hwf : solWF st)
    (r1 r2 : InsertSolution)
    (habs : ∀ s ∈ getAllSolutions st, s.solutionId ≠ r1.solutionId)
    (hkey : r2.solutionId = r1.solutionId) :
    (createOrUpdateSolution st r1).1 = solutionOfInsert st.solutionId r1 ∧
    (createOrUpdateSolution (createOrUpdateSolution st r1).2 r2).1
      = solutionOfInsert st.solutionId r2 ∧
    (createOrUpdateSolution (createOrUpdateSolution st r1).2 r2).2.solutions
      = st.solutions ++ [(st.solutionId, solutionOfInsert st.solutionId r2)] ∧
    (getAllSolutions (createOrUpdateSolution (createOrUpdateSolution st r1).2 r2).2).filter
        (fun s => s.solutionId = r1.solutionId)
      = [solutionOfInsert st.solutionId r2] := by
  have hfreshS : ∀ kv ∈ st.solutions, kv.1 ≠ st.solutionId := by
    intro kv hkv
    have := hwf kv hkv
    omega
  have hfind1 : getSolutionById st r1.solutionId = none := by
    unfold getSolutionById
    rw [List.find?_eq_none]
    intro s hs
    simp [habs s hs]
  have hstep1 : createOrUpdateSolution st r1
      = (solutionOfInsert st.solutionId r1,
         { st with
            solutions := st.solutions ++
              [(st.solutionId, solutionOfInsert st.solutionId r1)],
            solutionId := st.solutionId + 1 }) := by
    simp only [createOrUpdateSolution, hfind1]
    rw [mapSet_fresh_append _ _ _ hfreshS]
  have hsnd1 := congrArg Prod.snd hstep1
  have hfind2 : getSolutionById
      ({ st with
          solutions := st.solutions ++
            [(st.solutionId, solutionOfInsert st.solutionId r1)],
          solutionId := st.solutionId + 1 } : MemStorage) r2.solutionId
      = some (solutionOfInsert st.solutionId r1) := by
    unfold getSolutionById
    simp only [mapValues, List.map_append]
    rw [hkey, List.find?_append]
    have hnone : ((st.solutions.map Prod.snd).find?
        (fun s => s.solutionId = r1.solutionId)) = none := by
      rw [List.find?_eq_none]
      intro s hs
      simp [habs s hs]
    rw [hnone]
    simp [solutionOfInsert]
  have hstep2 : createOrUpdateSolution
      ({ st with
          solutions := st.solutions ++
            [(st.solutionId, solutionOfInsert st.solutionId r1)],
          solutionId := st.solutionId + 1 } : MemStorage) r2
      = (solutionOfInsert st.solutionId r2,
         { st with
            solutions := st.solutions ++
              [(st.solutionId, solutionOfInsert st.solutionId r2)],
            solutionId := st.solutionId + 1 }) := by
    simp only [createOrUpdateSolution, hfind2]
    have hid : (solutionOfInsert st.solutionId r1).id = st.solutionId := rfl
    rw [hid, mapSet_replace_last _ _ _ _ hfreshS]
  refine ⟨by rw [hstep1], ?_, ?_, ?_⟩
  · rw [hsnd1, hstep2]
  · rw [hsnd1, hstep2]
  · rw [hsnd1, hstep2]
    simp only [getAllSolutions, mapValues, List.map_append, List.filter_append]
    have hnone2 : (st.solutions.map Prod.snd).filter
        (fun s => s.solutionId = r1.solutionId) = [] := by
      rw [List.filter_eq_nil_iff]
      intro s hs
      simp [habs s hs]
    rw [hnone2]
    simp [solutionOfInsert, hkey]

/-- Witness for C4: fresh store; R1 sets a summary, R2 omits it. -/
theorem upsert_replaces_fields_preserves_id_witness :
    (createOrUpdateSolution MemStorage.init
        { solutionId := "S1", summary := some "A" }).1
      = solutionOfInsert 1 { solutionId := "S1", summary := some "A" } ∧
    (createOrUpdateSolution (createOrUpdateSolution MemStorage.init
        { solutionId := "S1", summary := some "A" }).2
        { solutionId := "S1" }).1
      = solutionOfInsert 1 { solutionId := "S1" } ∧
    (createOrUpdateSolution (createOrUpdateSolution MemStorage.init
        { solutionId := "S1", summary := some "A" }).2
        { solutionId := "S1" }).2.solutions
      = MemStorage.init.solutions ++ [(1, solutionOfInsert 1 { solutionId := "S1" })] ∧
    (getAllSolutions (createOrUpdateSolution (createOrUpdateSolution MemStorage.init
        { solutionId := "S1", summary := some "A" }).2
        { solutionId := "S1" }).2).filter
        (fun s => s.solutionId = "S1")
      = [solutionOfInsert 1 { solutionId := "S1" }] :=
  upsert_replaces_fields_preserves_id MemStorage.init
    (by intro kv hkv; simp [MemStorage.init] at hkv)
    { solutionId := "S1", summary := some "A" } { solutionId := "S1" }
    (by intro s hs; simp [getAllSolutions, MemStorage.init, mapValues] at hs) rfl

/-! ## Claim C3 — what the response schema does (and does not) enforce -/

/-- The JSON encoding of a well-shaped criterion entry. -/
def encodeCriterion (c : CriterionResult) : JsonVal :=
  .obj [("id", .num c.id), ("name", .str c.name),
        ("result", .str (verdictToString c.result)),
        ("reasoning", .str c.reasoning)]

/-- The JSON encoding of a response with the given criteria list and
overall verdict. -/
def encodeResponse (crits : List CriterionResult) (vd : Verdict) : JsonVal :=
  .obj [("criteria", .arr (crits.map encodeCriterion)),
        ("overallVerdict", .str (verdictToString vd))]

theorem parseVerdict_encode (v : Verdict) :
    parseVerdict (.str (verdictToString v)) = some v := by
  cases v <;> rfl

theorem parseCriterion_encode (c : CriterionResult) :
    parseCriterion (encodeCriterion c) = some c := by
  cases c with
  | mk i n v why =>
    cases v <;>
      simp [parseCriterion, encodeCriterion, jsGetProp, parseVerdict, verdictToString]

theorem parseCriteriaList_encode (crits : List CriterionResult) :
    parseCriteriaList (crits.map encodeCriterion) = some crits := by
  induction crits with
  | nil => rfl
  | cons c rest ih => simp [parseCriteriaList, parseCriterion_encode, ih]

/-- Claim C3 (corrected).  `evaluationResponseSchema` checks shape and
enum membership only: ANY list of well-shaped criterion entries — any
length, any mix of PASS/FAIL — together with ANY overall verdict is
accepted, and the verdict is taken as sent, never recomputed from the
entries.  Neither the "exactly 5 entries" nor the "PASS iff all PASS"
property of the original claim is enforced by the gateway. -/
theorem evalResponse_schema_checks_shape_only
    (crits : List CriterionResult) (vd : Verdict) :
    evaluationResponseParse (encodeResponse crits vd) = some ⟨crits, vd⟩ := by
  simp [evaluationResponseParse, encodeResponse, jsGetProp, parseCriteria,
    parseCriteriaList_encode, parseVerdict_encode]

/-- Counterexample for C3 as stated: a response with five entries, one of
them FAIL, and overall verdict PASS passes schema validation, is stored,
and is returned as the 200 body with verdict PASS. -/
def rawMixedFive : JsonVal :=
  .obj [("criteria", .arr [
      .obj [("id", .num 1), ("name", .str "c1"), ("result", .str "PASS"),
            ("reasoning", .str "r1")],
      .obj [("id", .num 2), ("name", .str "c2"), ("result", .str "PASS"),
            ("reasoning", .str "r2")],
      .obj [("id", .num 3), ("name", .str "c3"), ("result", .str "FAIL"),
            ("reasoning", .str "r3")],
      .obj [("id", .num 4), ("name", .str "c4"), ("result", .str "PASS"),
            ("reasoning", .str "r4")],
      .obj [("id", .num 5), ("name", .str "c5"), ("result", .str "PASS"),
            ("reasoning", .str "r5")]]),
    ("overallVerdict", .str "PASS")]

/-- The store holding one solution with natural key "S1". -/
def storeWithS1 : MemStorage :=
  (createOrUpdateSolution MemStorage.init { solutionId := "S1" }).2

theorem evalResponse_inconsistent_verdict_accepted :
    (evaluationResponseParse rawMixedFive).map (fun r => r.overallVerdict)
      = some .PASS ∧
    (evaluationResponseParse rawMixedFive).map (fun r => r.criteria.length)
      = some 5 ∧
    (evaluationResponseParse rawMixedFive).map
        (fun r => r.criteria.all (fun c => c.result == .PASS))
      = some false ∧
    (handleEvaluate storeWithS1 [] 0 "ts" "S1" ⟨some "m", some 1⟩
        (.ok rawMixedFive)).1 = .success rawMixedFive ∧
    ((handleEvaluate storeWithS1 [] 0 "ts" "S1" ⟨some "m", some 1⟩
        (.ok rawMixedFive)).2.1.evaluations.map (fun kv => kv.2.overallVerdict))
      = ["PASS"] :=
  ⟨rfl, rfl, rfl, rfl, rfl⟩

/-! ## Claim C6 — the Gemini failure condition -/

/-- Route-level frame: any gateway error (transport, parse, or structure)
reaches the route's catch; nothing is stored. -/
theorem handleEvaluate_error_keeps_storage (st : MemStorage) (limiter : List Int)
    (now : Int) (nowIso paramId : String) (body : EvalRequestBody) (msg : String) :
    (handleEvaluate st limiter now nowIso paramId body (.error msg)).2.1 = st := by
  by_cases hc : (isRateLimited 5 60000 now limiter).1
  · simp [handleEvaluate, hc]
  · by_cases hb : (modelFalsy body.model || body.temperature.isNone) = true
    · simp [handleEvaluate, hc, hb]
    · cases hs : getSolutionById st paramId <;> simp [handleEvaluate, hc, hb, hs]

/-- Claim C6 (corrected).  The gateway extracts the candidate (fenced
tier, else greedy first-to-last brace span, else raw text), parses it,
and fails — with no internal retry and nothing appended to the
evaluation store — exactly when `JSON.parse` fails OR when the parsed
value lacks a truthy `criteria` OR lacks a truthy `overallVerdict`
(missing either one suffices, not only missing both as originally
claimed). -/
theorem gemini_parse_failure_characterization (text : String) :
    ((∃ msg, extractAndParseGemini text = .error msg) ↔
      parseJson (extractJsonString text) = none ∨
      (∃ j, parseJson (extractJsonString text) = some j ∧
        (jsTruthyOpt (jsGetProp j "criteria") = false ∨
         jsTruthyOpt (jsGetProp j "overallVerdict") = false))) ∧
    (∀ st limiter now nowIso paramId body msg,
      extractAndParseGemini text = .error msg →
      (handleEvaluate st limiter now nowIso paramId body
          (extractAndParseGemini text)).2.1 = st) := by
  constructor
  · cases h : parseJson (extractJsonString text) with
    | none => simp [extractAndParseGemini, h]
    | some j =>
      by_cases h1 : jsTruthyOpt (jsGetProp j "criteria") = true
      · by_cases h2 : jsTruthyOpt (jsGetProp j "overallVerdict") = true
        · simp [extractAndParseGemini, h, h1, h2]
        · rw [Bool.not_eq_true] at h2
          simp [extractAndParseGemini, h, h1, h2]
      · rw [Bool.not_eq_true] at h1
        simp [extractAndParseGemini, h, h1]
  · intro st limiter now nowIso paramId body msg herr
    rw [herr]
    exact handleEvaluate_error_keeps_storage st limiter now nowIso paramId body msg

/-- Witness for C6: a non-JSON text fails and nothing is stored. -/
theorem gemini_parse_failure_characterization_witness :
    extractAndParseGemini "not json" = .error "Failed to parse Gemini API response" ∧
    (handleEvaluate MemStorage.init [] 0 "" "S" ⟨some "m", some 1⟩
        (extractAndParseGemini "not json")).2.1 = MemStorage.init :=
  ⟨rfl,
   (gemini_parse_failure_characterization "not json").2 MemStorage.init [] 0 "" "S"
     ⟨some "m", some 1⟩ "Failed to parse Gemini API response" rfl⟩

/-- Counterexample for C6 as stated: a parsed object with a truthy
`criteria` but no `overallVerdict` does NOT lack both fields, yet the
gateway fails on it. -/
theorem gemini_missing_verdict_only_still_fails :
    parseJson (extractJsonString "\x7b\"criteria\": []\x7d")
      = some (.obj [("criteria", .arr [])]) ∧
    jsTruthyOpt (jsGetProp (.obj [("criteria", .arr [])]) "criteria") = true ∧
    extractAndParseGemini "\x7b\"criteria\": []\x7d"
      = .error "Failed to parse Gemini API response" :=
  ⟨rfl, rfl, rfl⟩

/-! ## Claim C2 — 429 handling in the batch orchestrator -/

theorem countAttempts_append (a b : List BatchEvent) :
    countAttempts (a ++ b) = countAttempts a + countAttempts b := by
  simp [countAttempts, List.filter_append]

/-- The per-item loop makes at most `remaining` further fetches — the 429
`continue` comes after the `attempts++` at the top of the loop, so
rate-limited fetches also draw down the budget. -/
theorem itemLoopAux_attempts_le (i : Nat) (reply : Nat → FetchReply)
    (rand429 randBack : Nat → Rat) :
    ∀ remaining attempts,
      countAttempts (itemLoopAux i reply rand429 randBack remaining attempts).2
        ≤ remaining := by
  intro remaining
  induction remaining with
  | zero => intro attempts; simp [itemLoopAux, countAttempts]
  | succ r ih =>
    intro attempts
    have hpre : countAttempts
        (if 0 < i then [BatchEvent.delayWait (baseDelay i : Rat)] else []) = 0 := by
      by_cases h : 0 < i <;> simp [h, countAttempts]
    have hfw : ∀ (x : FetchReply) (w : Rat),
        countAttempts [BatchEvent.fetchAttempt x, BatchEvent.rateWait w] = 1 :=
      fun _ _ => rfl
    have hfb : ∀ (x : FetchReply) (w : Rat),
        countAttempts [BatchEvent.fetchAttempt x, BatchEvent.backoffWait w] = 1 :=
      fun _ _ => rfl
    have hf1 : ∀ (x : FetchReply), countAttempts [BatchEvent.fetchAttempt x] = 1 :=
      fun _ => rfl
    cases hr : reply (attempts + 1) with
    | rateLimited ra =>
      simp only [itemLoopAux, hr]
      rw [countAttempts_append, countAttempts_append, hpre, hfw]
      have := ih (attempts + 1)
      omega
    | success b =>
      simp only [itemLoopAux, hr]
      rw [countAttempts_append, hpre, hf1]
      omega
    | httpFailure =>
      simp only [itemLoopAux, hr]
      by_cases ha : attempts + 1 < 3
      · simp only [ha, if_pos]
        rw [countAttempts_append, countAttempts_append, hpre, hfb]
        have := ih (attempts + 1)
        omega
      · simp only [ha, if_neg, if_false]
        rw [countAttempts_append, hpre, hf1]
        omega

/-- Claim C2 (corrected).  On a 429 the orchestrator waits the
server-supplied `retryAfter` seconds (absent — and the falsy `0` —
defaulting to 60) plus `Math.random() * 2000` jitter in `[0, 2000)` ms,
then retries the same item; but — contrary to the original claim — this
retry DOES consume the item's attempt budget: the loop increments
`attempts` before every fetch, 429 or not, so at most 3 total fetches
occur per item. -/
theorem rateLimit_retry_waits_and_consumes_budget
    (i attempts : Nat) (reply : Nat → FetchReply) (rand429 randBack : Nat → Rat)
    (ra : Option Nat) (hatt : attempts < 3)
    (hreply : reply (attempts + 1) = .rateLimited ra)
    (hr0 : 0 ≤ rand429 (attempts + 1)) (hr1 : rand429 (attempts + 1) < 1) :
    itemLoopAux i reply rand429 randBack (3 - attempts) attempts
      = ((itemLoopAux i reply rand429 randBack (3 - (attempts + 1)) (attempts + 1)).1,
         (if 0 < i then [.delayWait (baseDelay i : Rat)] else []) ++
           [.fetchAttempt (.rateLimited ra),
            .rateWait ((retryAfterOrDefault ra : Rat) * 1000
              + rand429 (attempts + 1) * 2000)] ++
           (itemLoopAux i reply rand429 randBack (3 - (attempts + 1)) (attempts + 1)).2) ∧
    (retryAfterOrDefault ra : Rat) * 1000
      ≤ (retryAfterOrDefault ra : Rat) * 1000 + rand429 (attempts + 1) * 2000 ∧
    (retryAfterOrDefault ra : Rat) * 1000 + rand429 (attempts + 1) * 2000
      < (retryAfterOrDefault ra : Rat) * 1000 + 2000 ∧
    retryAfterOrDefault none = 60 ∧
    countAttempts (itemLoopAux i reply rand429 randBack 3 0).2 ≤ 3 := by
  have hrem : 3 - attempts = (3 - (attempts + 1)) + 1 := by omega
  refine ⟨?_, ?_, ?_, rfl, itemLoopAux_attempts_le i reply rand429 randBack 3 0⟩
  · rw [hrem]
    simp [itemLoopAux, hreply]
  · nlinarith
  · nlinarith

/-- Witness for C2 (amended): one 429 with `retryAfter = 5` at the first
attempt, zero jitter. -/
theorem rateLimit_retry_waits_and_consumes_budget_witness :
    itemLoopAux 0 (fun _ => .rateLimited (some 5)) (fun _ => 0) (fun _ => 0) (3 - 0) 0
      = ((itemLoopAux 0 (fun _ => .rateLimited (some 5)) (fun _ => 0) (fun _ => 0)
            (3 - (0 + 1)) (0 + 1)).1,
         (if 0 < 0 then [.delayWait (baseDelay 0 : Rat)] else []) ++
           [.fetchAttempt (.rateLimited (some 5)),
            .rateWait ((retryAfterOrDefault (some 5) : Rat) * 1000 + 0 * 2000)] ++
           (itemLoopAux 0 (fun _ => .rateLimited (some 5)) (fun _ => 0) (fun _ => 0)
             (3 - (0 + 1)) (0 + 1)).2) ∧
    (retryAfterOrDefault (some 5) : Rat) * 1000
      ≤ (retryAfterOrDefault (some 5) : Rat) * 1000 + 0 * 2000 ∧
    (retryAfterOrDefault (some 5) : Rat) * 1000 + 0 * 2000
      < (retryAfterOrDefault (some 5) : Rat) * 1000 + 2000 ∧
    retryAfterOrDefault none = 60 ∧
    countAttempts (itemLoopAux 0 (fun _ => .rateLimited (some 5)) (fun _ => 0)
        (fun _ => 0) 3 0).2 ≤ 3 :=
  rateLimit_retry_waits_and_consumes_budget 0 0 (fun _ => .rateLimited (some 5))
    (fun _ => 0) (fun _ => 0) (some 5) (by decide) rfl (by norm_num) (by norm_num)

/-- Counterexample for C2 as stated: with 429 replies on the first three
attempts and a success available from the fourth on, the item ends with
no result after exactly 3 fetches — the would-be successful fourth
attempt never happens, so 429 responses did consume the 3-attempt
budget. -/
theorem rateLimit_429_exhausts_attempt_budget :
    (itemLoopAux 0
        (fun a => if a ≤ 3 then .rateLimited (some 5) else .success .null)
        (fun _ => 0) (fun _ => 0) 3 0).1 = none ∧
    countAttempts (itemLoopAux 0
        (fun a => if a ≤ 3 then .rateLimited (some 5) else .success .null)
        (fun _ => 0) (fun _ => 0) 3 0).2 = 3 :=
  ⟨rfl, rfl⟩

/-! ## Claim C8 — a failing item never aborts the batch -/

/-- The expected final results mapping: one entry per item whose retry
loop produced a result, in item order, keyed by natural key. -/
def successList (replies : Nat → Nat → FetchReply) (rand429 randBack : Nat → Nat → Rat) :
    List Solution → Nat → List (String × JsonVal)
  | [], _ => []
  | sol :: rest, i =>
    match (runItem i (replies i) (rand429 i) (randBack i)).1 with
    | some b => (sol.solutionId, b) :: successList replies rand429 randBack rest (i + 1)
    | none => successList replies rand429 randBack rest (i + 1)

theorem successList_key_mem (replies : Nat → Nat → FetchReply)
    (rand429 randBack : Nat → Nat → Rat) :
    ∀ (sols : List Solution) (i : Nat) (x : String),
      x ∈ (successList replies rand429 randBack sols i).map Prod.fst →
      x ∈ sols.map (fun s => s.solutionId) := by
  intro sols
  induction sols with
  | nil => intro i x h; simp [successList] at h
  | cons sol rest ih =>
    intro i x h
    simp only [successList] at h
    rw [List.map_cons]
    cases hr : (runItem i (replies i) (rand429 i) (randBack i)).1 with
    | some b =>
      simp only [hr, List.map_cons, List.mem_cons] at h
      rcases h with h | h
      · rw [h]
        exact List.mem_cons_self _ _
      · exact List.mem_cons_of_mem _ (ih (i + 1) x h)
    | none =>
      simp only [hr] at h
      exact List.mem_cons_of_mem _ (ih (i + 1) x h)

theorem batchLoop_eq_successList (replies : Nat → Nat → FetchReply)
    (rand429 randBack : Nat → Nat → Rat) :
    ∀ (sols : List Solution) (i : Nat) (acc : List (String × JsonVal)),
      (∀ s ∈ sols, ∀ kv ∈ acc, kv.1 ≠ s.solutionId) →
      (sols.map (fun s => s.solutionId)).Nodup →
      (batchLoop replies rand429 randBack sols i acc).1
        = acc ++ successList replies rand429 randBack sols i := by
  intro sols
  induction sols with
  | nil => intro i acc _ _; simp [batchLoop, successList]
  | cons sol rest ih =>
    intro i acc hdisj hnodup
    rw [List.map_cons] at hnodup
    have hnd := List.nodup_cons.mp hnodup
    simp only [batchLoop, successList]
    cases hr : (runItem i (replies i) (rand429 i) (randBack i)).1 with
    | none =>
      simp only [hr]
      exact ih (i + 1) acc
        (fun s hs kv hkv => hdisj s (by simp [hs]) kv hkv) hnd.2
    | some b =>
      simp only [hr]
      have hfresh : ∀ kv ∈ acc, kv.1 ≠ sol.solutionId :=
        fun kv hkv => hdisj sol (by simp) kv hkv
      rw [mapSet_fresh_append acc sol.solutionId b hfresh]
      have hdisj2 : ∀ s ∈ rest, ∀ kv ∈ acc ++ [(sol.solutionId, b)],
          kv.1 ≠ s.solutionId := by
        intro s hs kv hkv
        rcases List.mem_append.mp hkv with h | h
        · exact hdisj s (by simp [hs]) kv h
        · have hkv1 : kv.1 = sol.solutionId := by
            simp at h
            rw [h]
          rw [hkv1]
          intro he
          exact hnd.1 (by rw [he]; exact List.mem_map_of_mem _ hs)
      rw [ih (i + 1) (acc ++ [(sol.solutionId, b)]) hdisj2 hnd.2]
      simp

theorem successList_mem_iff (replies : Nat → Nat → FetchReply)
    (rand429 randBack : Nat → Nat → Rat) :
    ∀ (sols : List Solution) (i k : Nat) (hk : k < sols.length),
      (sols.map (fun s => s.solutionId)).Nodup →
      ((sols.get ⟨k, hk⟩).solutionId
          ∈ (successList replies rand429 randBack sols i).map Prod.fst
        ↔ (runItem (i + k) (replies (i + k)) (rand429 (i + k))
            (randBack (i + k))).1.isSome = true) := by
  intro sols
  induction sols with
  | nil => intro i k hk; exact absurd hk (by simp)
  | cons sol rest ih =>
    intro i k hk hnodup
    rw [List.map_cons] at hnodup
    have hnd := List.nodup_cons.mp hnodup
    cases k with
    | zero =>
      simp only [List.get, successList, Nat.add_zero]
      cases hr : (runItem i (replies i) (rand429 i) (randBack i)).1 with
      | some b => simp [hr]
      | none =>
        simp only [hr]
        constructor
        · intro hmem
          exact absurd
            (successList_key_mem replies rand429 randBack rest (i + 1) _ hmem)
            hnd.1
        · intro hsome
          simp at hsome
    | succ k2 =>
      have hk2 : k2 < rest.length := by simpa using hk
      simp only [List.get, successList]
      have harith : i + 1 + k2 = i + (k2 + 1) := by omega
      cases hr : (runItem i (replies i) (rand429 i) (randBack i)).1 with
      | some b =>
        simp only [hr, List.map_cons, List.mem_cons]
        have hmem2 : (rest.get ⟨k2, hk2⟩) ∈ rest := rest.get_mem _ _
        have hne : (rest.get ⟨k2, hk2⟩).solutionId ≠ sol.solutionId := by
          intro he
          exact hnd.1 (by rw [← he]; exact List.mem_map_of_mem _ hmem2)
        rw [or_iff_right hne]
        rw [← harith]
        exact ih (i + 1) k2 hk2 hnd.2
      | none =>
        simp only [hr]
        rw [← harith]
        exact ih (i + 1) k2 hk2 hnd.2

/-- Claim C8 (confirmed).  The batch never aborts: the final results
mapping contains exactly the items whose bounded retry loop succeeded
(each under its natural key, failing items simply absent), and the
completion summary reports the number of successes out of the total. -/
theorem batch_skip_without_abort (replies : Nat → Nat → FetchReply)
    (rand429 randBack : Nat → Nat → Rat) (sols : List Solution)
    (hnodup : (sols.map (fun s => s.solutionId)).Nodup) :
    (evaluateAll replies rand429 randBack sols).1
      = successList replies rand429 randBack sols 0 ∧
    (∀ k (hk : k < sols.length),
      ((sols.get ⟨k, hk⟩).solutionId
          ∈ (evaluateAll replies rand429 randBack sols).1.map Prod.fst
        ↔ (runItem k (replies k) (rand429 k) (randBack k)).1.isSome = true)) ∧
    batchSummary replies rand429 randBack sols
      = ((evaluateAll replies rand429 randBack sols).1.length, sols.length) := by
  have h1 : (evaluateAll replies rand429 randBack sols).1
      = successList replies rand429 randBack sols 0 := by
    have := batchLoop_eq_successList replies rand429 randBack sols 0 []
      (by intro s _ kv hkv; simp at hkv) hnodup
    simpa [evaluateAll] using this
  refine ⟨h1, ?_, rfl⟩
  intro k hk
  rw [h1]
  have := successList_mem_iff replies rand429 randBack sols 0 k hk hnodup
  simpa using this

/-- Witness for C8: three solutions where the second fails every attempt
and the others succeed immediately — results hold items 1 and 3, item 2
is absent, and the summary reads 2 of 3. -/
theorem batch_skip_without_abort_witness :
    ((evaluateAll (fun i _ => if i = 1 then .httpFailure else .success .null)
        (fun _ _ => 0) (fun _ _ => 0)
        [solutionOfInsert 1 { solutionId := "A" },
         solutionOfInsert 2 { solutionId := "B" },
         solutionOfInsert 3 { solutionId := "C" }]).1
      = successList (fun i _ => if i = 1 then .httpFailure else .success .null)
          (fun _ _ => 0) (fun _ _ => 0)
          [solutionOfInsert 1 { solutionId := "A" },
           solutionOfInsert 2 { solutionId := "B" },
           solutionOfInsert 3 { solutionId := "C" }] 0 ∧
      (∀ k (hk : k < ([solutionOfInsert 1 { solutionId := "A" },
            solutionOfInsert 2 { solutionId := "B" },
            solutionOfInsert 3 { solutionId := "C" }] : List Solution).length),
        ((([solutionOfInsert 1 { solutionId := "A" },
            solutionOfInsert 2 { solutionId := "B" },
            solutionOfInsert 3 { solutionId := "C" }] : List Solution).get
              ⟨k, hk⟩).solutionId
            ∈ (evaluateAll (fun i _ => if i = 1 then .httpFailure else .success .null)
                (fun _ _ => 0) (fun _ _ => 0)
                [solutionOfInsert 1 { solutionId := "A" },
                 solutionOfInsert 2 { solutionId := "B" },
                 solutionOfInsert 3 { solutionId := "C" }]).1.map Prod.fst
          ↔ (runItem k
              ((fun i _ => if i = 1 then FetchReply.httpFailure else .success .null) k)
              ((fun _ _ => (0 : Rat)) k) ((fun _ _ => (0 : Rat)) k)).1.isSome = true)) ∧
      batchSummary (fun i _ => if i = 1 then .httpFailure else .success .null)
          (fun _ _ => 0) (fun _ _ => 0)
          [solutionOfInsert 1 { solutionId := "A" },
           solutionOfInsert 2 { solutionId := "B" },
           solutionOfInsert 3 { solutionId := "C" }]
        = ((evaluateAll (fun i _ => if i = 1 then .httpFailure else .success .null)
            (fun _ _ => 0) (fun _ _ => 0)
            [solutionOfInsert 1 { solutionId := "A" },
             solutionOfInsert 2 { solutionId := "B" },
             solutionOfInsert 3 { solutionId := "C" }]).1.length, 3)) ∧
    batchSummary (fun i _ => if i = 1 then .httpFailure else .success .null)
        (fun _ _ => 0) (fun _ _ => 0)
        [solutionOfInsert 1 { solutionId := "A" },
         solutionOfInsert 2 { solutionId := "B" },
         solutionOfInsert 3 { solutionId := "C" }] = (2, 3) ∧
    (evaluateAll (fun i _ => if i = 1 then .httpFailure else .success .null)
        (fun _ _ => 0) (fun _ _ => 0)
        [solutionOfInsert 1 { solutionId := "A" },
         solutionOfInsert 2 { solutionId := "B" },
         solutionOfInsert 3 { solutionId := "C" }]).1.map Prod.fst = ["A", "C"] :=
  ⟨batch_skip_without_abort
      (fun i _ => if i = 1 then .httpFailure else .success .null)
      (fun _ _ => 0) (fun _ _ => 0)
      [solutionOfInsert 1 { solutionId := "A" },
       solutionOfInsert 2 { solutionId := "B" },
       solutionOfInsert 3 { solutionId := "C" }] (by decide),
   rfl, rfl⟩

/-! ## Claim C5 — within-run dedup of the ingestion pass -/

theorem insertOfRow_solutionId (r : Row) :
    (insertOfRow r).solutionId = rowGet r "Solution ID" := rfl

theorem mapFind_mapSet_self {α β : Type} [DecidableEq α]
    (m : List (α × β)) (k : α) (v : β) :
    mapFind (mapSet m k v) k = some v := by
  induction m with
  | nil => simp [mapSet, mapFind]
  | cons kv rest ih =>
    by_cases h : kv.1 = k
    · simp [mapSet, mapFind, h]
    · simp only [mapSet]
      rw [if_neg h]
      simp only [mapFind, List.find?]
      rw [show (decide (kv.1 = k)) = false by simp [h]]
      exact ih

theorem mapFind_mapSet_ne {α β : Type} [DecidableEq α]
    (m : List (α × β)) (k : α) (v : β) (k2 : α) (h : k2 ≠ k) :
    mapFind (mapSet m k v) k2 = mapFind m k2 := by
  have hne : k ≠ k2 := Ne.symm h
  induction m with
  | nil =>
    simp only [mapSet]
    unfold mapFind
    rw [List.find?_cons_of_neg _ (by simpa using hne)]
  | cons kv rest ih =>
    by_cases hh : kv.1 = k
    · simp only [mapSet]
      rw [if_pos hh]
      unfold mapFind
      rw [List.find?_cons_of_neg _ (by simpa using hne),
          List.find?_cons_of_neg _ (by simp [hh, hne])]
    · simp only [mapSet]
      rw [if_neg hh]
      by_cases h2 : kv.1 = k2
      · unfold mapFind
        rw [List.find?_cons_of_pos _ (by simpa using h2),
            List.find?_cons_of_pos _ (by simpa using h2)]
      · unfold mapFind
        rw [List.find?_cons_of_neg _ (by simpa using h2),
            List.find?_cons_of_neg _ (by simpa using h2)]
        exact ih

theorem mapFind_none_keys {α β : Type} [DecidableEq α]
    (m : List (α × β)) (k : α) (h : mapFind m k = none) :
    ∀ kv ∈ m, kv.1 ≠ k := by
  intro kv hkv he
  unfold mapFind at h
  cases hf : m.find? (fun kv => kv.1 = k) with
  | some p => rw [hf] at h; simp at h
  | none =>
    have := List.find?_eq_none.mp hf kv hkv
    simp [he] at this

/-- The dedup pass keeps the FIRST row for each nonempty key: lookups in
the processed map agree with what is already in the accumulator, else
with the first matching row of the remaining input. -/
theorem processRecords_find (key : String) (hk : ¬ key = "") :
    ∀ (rows : List Row) (acc : List (String × InsertSolution)),
      mapFind (processRecords rows acc) key
        = match mapFind acc key with
          | some v => some v
          | none => (rows.find? (fun row => rowGet row "Solution ID" = key)).map
              insertOfRow := by
  intro rows
  induction rows with
  | nil =>
    intro acc
    cases hv : mapFind acc key <;> simp [processRecords, hv]
  | cons r rest ih =>
    intro acc
    by_cases hempty : rowGet r "Solution ID" = ""
    · have hguard : (rowGet r "Solution ID" == ""
          || mapHasKey acc (rowGet r "Solution ID")) = true := by
        simp [hempty]
      have hpred : ¬ (rowGet r "Solution ID" = key) := by
        rw [hempty]; exact fun he => hk he.symm
      simp only [processRecords, hguard, if_pos]
      rw [ih acc]
      rw [List.find?_cons_of_neg _ (by simpa using hpred)]
    · by_cases hhas : mapHasKey acc (rowGet r "Solution ID") = true
      · have hguard : (rowGet r "Solution ID" == ""
            || mapHasKey acc (rowGet r "Solution ID")) = true := by
          simp [hhas]
        simp only [processRecords, hguard, if_pos]
        rw [ih acc]
        by_cases hmatch : rowGet r "Solution ID" = key
        · obtain ⟨v, hv⟩ : ∃ v, mapFind acc key = some v := by
            rw [← hmatch]
            simpa [mapHasKey, Option.isSome_iff_exists] using hhas
          simp [hv]
        · rw [List.find?_cons_of_neg _ (by simpa using hmatch)]
      · have hguard : (rowGet r "Solution ID" == ""
            || mapHasKey acc (rowGet r "Solution ID")) = false := by
          simp only [Bool.or_eq_false_iff]
          constructor
          · simpa using hempty
          · simpa using hhas
        simp only [processRecords, hguard, Bool.false_eq_true, if_neg,
          not_false_iff, if_false]
        rw [ih (mapSet acc (insertOfRow r).solutionId (insertOfRow r))]
        have hnone : mapFind acc (rowGet r "Solution ID") = none := by
          simpa [mapHasKey, Option.isSome_iff_exists, Option.eq_none_iff_forall_not_mem]
            using hhas
        by_cases hmatch : rowGet r "Solution ID" = key
        · rw [show (insertOfRow r).solutionId = key from hmatch ▸ insertOfRow_solutionId r]
          rw [mapFind_mapSet_self]
          rw [← hmatch] at hk ⊢
          rw [hnone]
          rw [List.find?_cons_of_pos _ (by simp)]
          simp
        · rw [insertOfRow_solutionId]
          rw [mapFind_mapSet_ne _ _ _ _ (fun he => hmatch he.symm)]
          rw [List.find?_cons_of_neg _ (by simpa using hmatch)]

/-- Keys of the processed map are the values' natural keys, are nonempty,
and are pairwise distinct. -/
theorem processRecords_invariant :
    ∀ (rows : List Row) (acc : List (String × InsertSolution)),
      (∀ kv ∈ acc, kv.2.solutionId = kv.1 ∧ kv.1 ≠ "") →
      (acc.map Prod.fst).Nodup →
      (∀ kv ∈ processRecords rows acc, kv.2.solutionId = kv.1 ∧ kv.1 ≠ "") ∧
      ((processRecords rows acc).map Prod.fst).Nodup := by
  intro rows
  induction rows with
  | nil => intro acc hcoh hnd; exact ⟨hcoh, hnd⟩
  | cons r rest ih =>
    intro acc hcoh hnd
    by_cases hguard : (rowGet r "Solution ID" == ""
        || mapHasKey acc (rowGet r "Solution ID")) = true
    · simp only [processRecords, hguard, if_pos]
      exact ih acc hcoh hnd
    · rw [Bool.not_eq_true] at hguard
      simp only [processRecords, hguard, Bool.false_eq_true, if_neg,
        not_false_iff, if_false]
      have hparts := Bool.or_eq_false_iff.mp hguard
      have hempty : rowGet r "Solution ID" ≠ "" := by
        simpa using hparts.1
      have hnone : mapFind acc (rowGet r "Solution ID") = none := by
        have := hparts.2
        simp only [mapHasKey] at this
        cases hf : mapFind acc (rowGet r "Solution ID")
        · rfl
        · rw [hf] at this; simp at this
      have hfresh : ∀ kv ∈ acc, kv.1 ≠ (insertOfRow r).solutionId := by
        rw [insertOfRow_solutionId]
        exact mapFind_none_keys acc _ hnone
      rw [mapSet_fresh_append acc _ _ hfresh] at *
      apply ih
      · intro kv hkv
        rcases List.mem_append.mp hkv with h | h
        · exact hcoh kv h
        · have : kv = ((insertOfRow r).solutionId, insertOfRow r) := by
            simpa using h
          rw [this]
          exact ⟨rfl, by rw [insertOfRow_solutionId]; exact hempty⟩
      · rw [List.map_append]
        simp only [List.map_cons, List.map_nil]
        rw [List.nodup_append]
        refine ⟨hnd, by simp, ?_⟩
        intro x hx
        simp only [List.mem_singleton]
        intro he
        rcases List.mem_map.mp hx with ⟨kv, hkv, hkv1⟩
        exact hfresh kv hkv (by rw [hkv1, he])

/-- The records created by upserting a list of fresh-keyed inserts, in
order, with consecutive ids from `base`. -/
def insertedRecords (base : Nat) : List InsertSolution → List Solution
  | [] => []
  | ins :: rest => solutionOfInsert base ins :: insertedRecords (base + 1) rest

/-- Upserting inserts whose keys are fresh and pairwise distinct only
ever takes the insert branch: the final store is the old records plus
one new record per insert, ids assigned in order. -/
theorem ingestInserts_fresh :
    ∀ (inserts : List InsertSolution) (st : MemStorage),
      solWF st →
      (∀ ins ∈ inserts, ∀ s ∈ getAllSolutions st, s.solutionId ≠ ins.solutionId) →
      ((inserts.map (fun i => i.solutionId)).Nodup) →
      getAllSolutions (ingestInserts st inserts)
        = getAllSolutions st ++ insertedRecords st.solutionId inserts := by
  intro inserts
  induction inserts with
  | nil => intro st _ _ _; simp [ingestInserts, insertedRecords]
  | cons ins rest ih =>
    intro st hwf hfresh hnd
    rw [List.map_cons] at hnd
    have hnd2 := List.nodup_cons.mp hnd
    have hfreshS : ∀ kv ∈ st.solutions, kv.1 ≠ st.solutionId := by
      intro kv hkv
      have := hwf kv hkv
      omega
    have hfind : getSolutionById st ins.solutionId = none := by
      unfold getSolutionById
      rw [List.find?_eq_none]
      intro s hs
      simp [hfresh ins (by simp) s hs]
    have hstep : createOrUpdateSolution st ins
        = (solutionOfInsert st.solutionId ins,
           { st with
              solutions := st.solutions ++
                [(st.solutionId, solutionOfInsert st.solutionId ins)],
              solutionId := st.solutionId + 1 }) := by
      simp only [createOrUpdateSolution, hfind]
      rw [mapSet_fresh_append _ _ _ hfreshS]
    simp only [ingestInserts, insertedRecords]
    have hsnd := congrArg Prod.snd hstep
    rw [hsnd]
    have hwf2 : solWF ({ st with
        solutions := st.solutions ++
          [(st.solutionId, solutionOfInsert st.solutionId ins)],
        solutionId := st.solutionId + 1 } : MemStorage) := by
      intro kv hkv
      show kv.1 < st.solutionId + 1
      have hkv2 : kv ∈ st.solutions ++
          [(st.solutionId, solutionOfInsert st.solutionId ins)] := hkv
      rcases List.mem_append.mp hkv2 with h | h
      · have := hwf kv h
        omega
      · have : kv.1 = st.solutionId := by
          simp at h
          rw [h]
        omega
    have hfresh2 : ∀ i ∈ rest,
        ∀ s ∈ getAllSolutions ({ st with
          solutions := st.solutions ++
            [(st.solutionId, solutionOfInsert st.solutionId ins)],
          solutionId := st.solutionId + 1 } : MemStorage),
        s.solutionId ≠ i.solutionId := by
      intro i hi s hs
      have hs2 : s ∈ mapValues (st.solutions ++
          [(st.solutionId, solutionOfInsert st.solutionId ins)]) := hs
      simp only [mapValues, List.map_append] at hs2
      rcases List.mem_append.mp hs2 with h | h
      · exact hfresh i (by simp [hi]) s h
      · have hsv : s = solutionOfInsert st.solutionId ins := by
          simpa using h
        rw [hsv]
        show ins.solutionId ≠ i.solutionId
        intro he
        exact hnd2.1 (by rw [he]; exact List.mem_map_of_mem _ hi)
    rw [ih _ hwf2 hfresh2 hnd2.2]
    simp [getAllSolutions, mapValues]

theorem insertedRecords_filter_none (key : String) :
    ∀ (inserts : List InsertSolution) (base : Nat),
      inserts.find? (fun ins => ins.solutionId = key) = none →
      (insertedRecords base inserts).filter (fun s => s.solutionId = key) = [] := by
  intro inserts
  induction inserts with
  | nil => intro base _; rfl
  | cons ins rest ih =>
    intro base hf
    have hhead : ¬ (ins.solutionId = key) := by
      intro he
      rw [List.find?_cons_of_pos _ (by simpa using he)] at hf
      exact Option.noConfusion hf
    simp only [insertedRecords, List.filter_cons]
    rw [show (decide ((solutionOfInsert base ins).solutionId = key)) = false by
      simpa using hhead]
    rw [List.find?_cons_of_neg _ (by simpa using hhead)] at hf
    exact ih (base + 1) hf

theorem insertedRecords_filter_first (key : String) :
    ∀ (inserts : List InsertSolution) (base : Nat) (ins : InsertSolution),
      (inserts.map (fun i => i.solutionId)).Nodup →
      inserts.find? (fun i => i.solutionId = key) = some ins →
      ∃ n, (insertedRecords base inserts).filter (fun s => s.solutionId = key)
        = [solutionOfInsert n ins] := by
  intro inserts
  induction inserts with
  | nil => intro base ins _ hf; exact absurd hf (by simp)
  | cons hd rest ih =>
    intro base ins hnd hf
    rw [List.map_cons] at hnd
    have hnd2 := List.nodup_cons.mp hnd
    by_cases hhead : hd.solutionId = key
    · rw [List.find?_cons_of_pos _ (by simpa using hhead)] at hf
      have hins : hd = ins := by simpa using hf
      refine ⟨base, ?_⟩
      simp only [insertedRecords, List.filter_cons]
      rw [show (decide ((solutionOfInsert base hd).solutionId = key)) = true by
        simpa using hhead]
      rw [hins]
      have hrest : rest.find? (fun i => i.solutionId = key) = none := by
        rw [List.find?_eq_none]
        intro i hi
        simp only [decide_eq_true_eq]
        intro he
        apply hnd2.1
        rw [hhead, ← he]
        exact List.mem_map_of_mem _ hi
      rw [insertedRecords_filter_none key rest (base + 1) hrest]
      simp
    · rw [List.find?_cons_of_neg _ (by simpa using hhead)] at hf
      obtain ⟨n, hn⟩ := ih (base + 1) ins hnd2.2 hf
      refine ⟨n, ?_⟩
      simp only [insertedRecords, List.filter_cons]
      rw [show (decide ((solutionOfInsert base hd).solutionId = key)) = false by
        simpa using hhead]
      exact hn

/-- Looking a key up among the values agrees with the map lookup when
every value carries its own key. -/
theorem values_find_eq_mapFind (key : String) :
    ∀ (m : List (String × InsertSolution)),
      (∀ kv ∈ m, kv.2.solutionId = kv.1) →
      (mapValues m).find? (fun ins => ins.solutionId = key) = mapFind m key := by
  intro m
  induction m with
  | nil => intro _; rfl
  | cons kv rest ih =>
    intro hcoh
    have hk := (hcoh kv (by simp))
    by_cases hmatch : kv.1 = key
    · unfold mapValues mapFind
      rw [List.map_cons,
        List.find?_cons_of_pos _ (by simp [hk, hmatch]),
        List.find?_cons_of_pos _ (by simpa using hmatch)]
      rfl
    · unfold mapValues mapFind
      rw [List.map_cons,
        List.find?_cons_of_neg _ (by simp [hk, hmatch]),
        List.find?_cons_of_neg _ (by simpa using hmatch)]
      exact ih (fun kv2 h2 => hcoh kv2 (by simp [h2]))

/-- Claim C5 (corrected).  In the startup ingestion run
(`loadSolutionsFromCSV`), when several rows share a nonempty natural key,
exactly one record results for that key, carrying the FIRST occurring
row's values — later duplicates are silently dropped.  (The manual upload
route is a separate code path without this dedup pass; see the
counterexample.) -/
theorem ingestion_dedup_first_occurrence (rows : List Row) (key : String)
    (hk : ¬ key = "") (r : Row)
    (hfirst : rows.find? (fun row => rowGet row "Solution ID" = key) = some r) :
    ∃ n, (getAllSolutions (loadSolutionsRun rows MemStorage.init)).filter
        (fun s => s.solutionId = key) = [solutionOfInsert n (insertOfRow r)] := by
  have hinv := processRecords_invariant rows []
    (by intro kv h; simp at h) (by simp)
  have hcoh : ∀ kv ∈ processRecords rows [], kv.2.solutionId = kv.1 :=
    fun kv h => (hinv.1 kv h).1
  have hmapeq : (mapValues (processRecords rows [])).map (fun i => i.solutionId)
      = (processRecords rows []).map Prod.fst := by
    unfold mapValues
    rw [List.map_map]
    exact List.map_congr_left hcoh
  have hnodvals : ((mapValues (processRecords rows [])).map
      (fun i => i.solutionId)).Nodup := by
    rw [hmapeq]
    exact hinv.2
  have hfind : mapFind (processRecords rows []) key = some (insertOfRow r) := by
    have h1 : mapFind (processRecords rows []) key
        = (rows.find? (fun row => rowGet row "Solution ID" = key)).map
            insertOfRow := by
      rw [processRecords_find key hk rows []]
      rfl
    rw [h1, hfirst]
    rfl
  have hvfind : (mapValues (processRecords rows [])).find?
      (fun ins => ins.solutionId = key) = some (insertOfRow r) := by
    rw [values_find_eq_mapFind key (processRecords rows []) hcoh, hfind]
  have hrun : getAllSolutions (loadSolutionsRun rows MemStorage.init)
      = insertedRecords 1 (mapValues (processRecords rows [])) := by
    unfold loadSolutionsRun
    have := ingestInserts_fresh (mapValues (processRecords rows []))
      MemStorage.init
      (by intro kv h; simp [MemStorage.init] at h)
      (by intro i _ s hs; simp [getAllSolutions, MemStorage.init, mapValues] at hs)
      hnodvals
    simpa [getAllSolutions, MemStorage.init, mapValues] using this
  rw [hrun]
  exact insertedRecords_filter_first key (mapValues (processRecords rows [])) 1
    (insertOfRow r) hnodvals hvfind

/-- Witness for C5 (amended): two rows with key "S1" and summaries "A"
then "B"; the startup ingestion keeps the first. -/
theorem ingestion_dedup_first_occurrence_witness :
    (∃ n, (getAllSolutions (loadSolutionsRun
        [[("Solution ID", "S1"),
          ("Provide a one-line summary of your solution.", "A")],
         [("Solution ID", "S1"),
          ("Provide a one-line summary of your solution.", "B")]]
        MemStorage.init)).filter (fun s => s.solutionId = "S1")
      = [solutionOfInsert n (insertOfRow
          [("Solution ID", "S1"),
           ("Provide a one-line summary of your solution.", "A")])]) ∧
    (getSolutionById (loadSolutionsRun
        [[("Solution ID", "S1"),
          ("Provide a one-line summary of your solution.", "A")],
         [("Solution ID", "S1"),
          ("Provide a one-line summary of your solution.", "B")]]
        MemStorage.init) "S1").map (fun s => s.summary) = some (some "A") :=
  ⟨ingestion_dedup_first_occurrence
      [[("Solution ID", "S1"),
        ("Provide a one-line summary of your solution.", "A")],
       [("Solution ID", "S1"),
        ("Provide a one-line summary of your solution.", "B")]]
      "S1" (by decide)
      [("Solution ID", "S1"),
       ("Provide a one-line summary of your solution.", "A")] (by rfl),
   rfl⟩

/-- Counterexample for C5 as stated: the manual upload route
(`POST /api/solutions/upload`) does NOT share the dedup pass — it upserts
every row in file order, so with two "S1" rows the stored summary is the
SECOND row's "B", not the first row's "A". -/
theorem upload_duplicate_last_wins :
    (getSolutionById (uploadRun
        [[("Solution ID", "S1"),
          ("Provide a one-line summary of your solution.", "A")],
         [("Solution ID", "S1"),
          ("Provide a one-line summary of your solution.", "B")]]
        MemStorage.init) "S1").map (fun s => s.summary) = some (some "B") ∧
    (getAllSolutions (uploadRun
        [[("Solution ID", "S1"),
          ("Provide a one-line summary of your solution.", "A")],
         [("Solution ID", "S1"),
          ("Provide a one-line summary of your solution.", "B")]]
        MemStorage.init)).length = 1 ∧
    (insertOfRow [("Solution ID", "S1"),
        ("Provide a one-line summary of your solution.", "A")]).summary
      = some "A" :=
  ⟨rfl, rfl, rfl⟩
